import Mathlib

/-!
Verification of the CDM validation engine and schema compiler of
cdscdm-tools, shallowly embedded from the two source variants
`cdscdm_tools/cdm.py` and `cdstoolbox/cdm.py`, plus
`cdscdm_tools/cmor_to_cdm.py`.

Diagnostics emitted through the structured logger are modelled as an
ordered list of `Diag` values returned by each check function, in the
order the Python code calls `log.warning` / `log.error`.
-/

/-- Severity of an emitted diagnostic: `log.warning` or `log.error`. -/
inductive Severity
  | warning
  | error
deriving DecidableEq, Repr

/-- The message of a diagnostic.  Each constructor corresponds to one
literal message string in the source; arguments record the contextual
key/value fields bound on the log call (such as `expected_name=` or
`matching_variables=`). -/
inductive Msg
  | nonStringKey (key : String)              -- "non-string key", key=repr(key)
  | missingConventions                       -- missing required Conventions global attribute
  | invalidConventions (value : String)      -- invalid Conventions value
  | missingGlobalAttr (name : String)        -- missing recommended global attribute <name>
  | unexpectedName                           -- unexpected name for variable
  | missingStandardName                      -- missing recommended attribute standard_name
  | standardNameNotValid                     -- standard_name attribute not valid (no match)
  | wrongNameForVariable (expected : String) -- wrong name for variable, expected_name=...
  | matchingStandardNames (names : List String) -- variables with matching standard_name
  | missingLongName                          -- missing recommended attribute long_name
  | missingUnits                             -- missing recommended attribute units
  | unitsNotValid (units : String)           -- units attribute not valid
  | unitsNotEquivalent                       -- units attribute not equivalent to the expected
  | unitsNotEqual                            -- units attribute not equal to the expected
  | missingExpectedStandardName              -- missing expected attribute standard_name
  | standardNameMismatch (observed : String) -- standard_name attribute not valid (mismatch)
  | unknownDimension (dim : String)          -- unknown dimension <dim>   (cdscdm_tools)
  | unknownCoordinate (dim : String)         -- unknown coordinate <dim>  (cdstoolbox)
  | dimensionWithoutCoordinate (dim : String) -- dimension with no associated coordinate
  | storedDirectionNotIncreasing             -- coordinate stored direction is not increasing
  | storedDirectionNotDecreasing             -- coordinate stored direction is not decreasing
  | atMostOneNonAuxiliary (names : List String) -- file must have at most one non-auxiliary variable
  | atMostOneVariable (names : List String)  -- file must have at most one variable (cdstoolbox)
  | wrongNameForCoordinate (expected : String) -- wrong name for coordinate
  | coordinateNotFound                       -- coordinate not found in CDM
  | missingRequiredUnits                     -- missing required attribute units (coordinates)
deriving DecidableEq, Repr

/-- One structured-log diagnostic. -/
structure Diag where
  severity : Severity
  msg : Msg
deriving DecidableEq, Repr

/-! ## Python mappings

Python `dict`s are modelled as ordered association lists with string
keys; lookup finds the first matching key (keys of a real `dict` are
unique, so this agrees with `dict` lookup), and `insertD` implements
`d[k] = v` (update in place, else append), matching `dict` assignment
and insertion-order preservation. -/

/-- Ordered mapping with string keys (a Python `dict` view). -/
abbrev SMap (α : Type) := List (String × α)

/-- `m.get(k)` for a string-keyed mapping. -/
def lookupS {α : Type} : SMap α → String → Option α
  | [], _ => none
  | (k2, v) :: rest, k => if k2 = k then some v else lookupS rest k

/-- `k in m` for a string-keyed mapping. -/
def hasKeyS {α : Type} (m : SMap α) (k : String) : Bool :=
  (lookupS m k).isSome

/-- `m[k] = v` with Python dict semantics: overwrite in place, else append. -/
def insertD {α : Type} : SMap α → String → α → SMap α
  | [], k, v => [(k, v)]
  | (k2, v2) :: rest, k, v =>
    if k2 = k then (k, v) :: rest else (k2, v2) :: insertD rest k v

/-- A Python hashable mapping key: either an actual string, or a
non-string key carrying its printable representation `repr(key)`. -/
inductive PyKey
  | str (s : String)
  | other (r : String)
deriving DecidableEq, Repr

/-- Whether the key is a string. -/
def PyKey.isStr : PyKey → Bool
  | .str _ => true
  | .other _ => false

/-- The string form of a key: the string itself, or `repr(key)`. -/
def PyKey.strForm : PyKey → String
  | .str s => s
  | .other r => r

/-- Ordered mapping with arbitrary hashable keys. -/
abbrev PMap (α : Type) := List (PyKey × α)

/-- `m.get(k)` where `k` is a string literal: only string keys can match. -/
def lookupP {α : Type} : PMap α → String → Option α
  | [], _ => none
  | (PyKey.str s, v) :: rest, k => if s = k then some v else lookupP rest k
  | (PyKey.other _, _) :: rest, k => lookupP rest k

/-- `k in m` where `k` is a string literal. -/
def hasKeyP {α : Type} (m : PMap α) (k : String) : Bool :=
  (lookupP m k).isSome

/-- Embed a string-keyed mapping as a hashable-keyed mapping. -/
def strs {α : Type} (m : SMap α) : PMap α :=
  m.map fun p => (PyKey.str p.1, p.2)

/-! ## Monotonicity check (`check_coordinate_data`, identical in both
variants: cdscdm_tools/cdm.py lines 173-188, cdstoolbox/cdm.py lines
155-171).  Coordinate values are modelled as integers; the dtype only
selects the representation of zero in the source (plain `0` or a zero
`timedelta64`), which is the same value `0` in this model. -/

/-- `coord.diff(coord_name).values`: successive differences of adjacent
elements. -/
def diffList : List Int → List Int
  | a :: b :: rest => (b - a) :: diffList (b :: rest)
  | _ => []

/-- `check_coordinate_data`: emit one error when any successive
difference violates the expected stored direction. -/
def check_coordinate_data (values : List Int) (increasing : Bool) : List Diag :=
  let diffs := diffList values
  if increasing then
    if diffs.any (fun d => decide (d ≤ 0)) then
      [⟨Severity.error, Msg.storedDirectionNotIncreasing⟩]
    else []
  else
    if diffs.any (fun d => decide (0 ≤ d)) then
      [⟨Severity.error, Msg.storedDirectionNotDecreasing⟩]
    else []

/-- A parsed unit: dimension, scale and offset (both in hundredths). -/
structure CFUnit where
  dim : String
  scale : Int
  offset : Int
deriving DecidableEq, Repr

/-- Modelled from the spec: parsing of a unit expression by the external
units library, restricted to a concrete table. -/
def parseUnits : String → Option CFUnit
  | "m" => some ⟨"length", 100, 0⟩
  | "km" => some ⟨"length", 100000, 0⟩
  | "K" => some ⟨"temperature", 100, 0⟩
  | "Celsius" => some ⟨"temperature", 100, 27315⟩
  | "Pa" => some ⟨"pressure", 100, 0⟩
  | "hPa" => some ⟨"pressure", 10000, 0⟩
  | "1" => some ⟨"dimensionless", 100, 0⟩
  | "hours" => some ⟨"time", 360000, 0⟩
  | "seconds" => some ⟨"time", 100, 0⟩
  | _ => none

namespace cfunits

/-- `Units(u).isvalid`. -/
def isvalid (u : String) : Bool := (parseUnits u).isSome

/-- `Units(a).equivalent(Units(b))`: same dimension. -/
def equivalent (a b : String) : Bool :=
  match parseUnits a, parseUnits b with
  | some x, some y => x.dim == y.dim
  | _, _ => false

/-- `Units(a).equals(Units(b))`: identical dimension, scale and offset. -/
def equalsU (a b : String) : Bool :=
  match parseUnits a, parseUnits b with
  | some x, some y => x == y
  | _, _ => false

/-- Modelled from the spec: `Units(None)` (the cdstoolbox variant can
construct a `Units` from an absent attribute); treated as a valid unit
of its own dimension, compatible with nothing in the table. -/
def parseUnitsO : Option String → Option CFUnit
  | none => some ⟨"nounit", 100, 0⟩
  | some s => parseUnits s

/-- `isvalid` on a possibly absent unit expression. -/
def isvalidO (u : Option String) : Bool := (parseUnitsO u).isSome

/-- `equivalent` on a possibly absent observed unit expression. -/
def equivalentO (a : Option String) (b : String) : Bool :=
  match parseUnitsO a, parseUnits b with
  | some x, some y => x.dim == y.dim
  | _, _ => false

/-- `equals` on a possibly absent observed unit expression. -/
def equalsO (a : Option String) (b : String) : Bool :=
  match parseUnitsO a, parseUnits b with
  | some x, some y => x == y
  | _, _ => false

end cfunits

/-- `TIME_DTYPE_NAMES` membership test (`dtype in TIME_DTYPE_NAMES`,
where an absent dtype is never a member). -/
def timeDtype (d : Option String) : Bool :=
  d == some "datetime64[ns]" || d == some "timedelta64[ns]"

/-- Modelled from the spec: `CDM["attrs"]`, the required global
attribute list of the schema artifact `cdm.json`, which is not under
src; the spec (sections 3 and 4.8) fixes it as title, history,
institution, source, comment, references. -/
def CDM_ATTRS : List String :=
  ["title", "history", "institution", "source", "comment", "references"]

/-- `CDM_ANCILLARY_VARS = {"crs"}` (cdscdm_tools/cdm.py line 19). -/
def CDM_ANCILLARY_VARS : List String := ["crs"]

/-! ## Key sanitization (`sanitise_mapping`, cdscdm_tools/cdm.py lines
23-34). -/

/-- One iteration of the `sanitise_mapping` loop. -/
def sanitise_step {α : Type} (acc : SMap α × List Diag) (kv : PyKey × α) :
    SMap α × List Diag :=
  match kv.1 with
  | PyKey.str s => (insertD acc.1 s kv.2, acc.2)
  | PyKey.other r =>
    (insertD acc.1 r kv.2, acc.2 ++ [⟨Severity.warning, Msg.nonStringKey r⟩])

/-- `sanitise_mapping`: coerce every key to a string, warning once per
non-string key; returns the cleaned mapping and the emitted
diagnostics. -/
def sanitise_mapping {α : Type} (m : PMap α) : SMap α × List Diag :=
  m.foldl sanitise_step ([], [])

/-! ## Definition resolution -/

namespace cdscdm

/-- `guess_definition` (cdscdm_tools/cdm.py lines 52-77): recover a
definition from the `standard_name` attribute, fanning out on the
number of matching definitions. -/
def guess_definition (attrs : SMap String) (definitions : SMap (SMap String)) :
    SMap String × List Diag :=
  match lookupS attrs "standard_name" with
  | some standard_name =>
    let matching_variables :=
      (definitions.filter fun p =>
        lookupS p.2 "standard_name" == some standard_name).map Prod.fst
    if matching_variables.length == 0 then
      ([], [⟨Severity.warning, Msg.standardNameNotValid⟩])
    else if matching_variables.length == 1 then
      let expected_name := matching_variables.headD ""
      ((lookupS definitions expected_name).getD [],
        [⟨Severity.warning, Msg.wrongNameForVariable expected_name⟩])
    else
      ([], [⟨Severity.warning, Msg.matchingStandardNames matching_variables⟩])
  | none => ([], [⟨Severity.warning, Msg.missingStandardName⟩])

/-- The resolution fragment of `check_variable` (cdscdm_tools/cdm.py
lines 138-142): a verbatim hit returns the definition silently; any
other name warns and falls back to `guess_definition`. -/
def resolveDefinition (name : String) (attrs : SMap String)
    (definitions : SMap (SMap String)) : SMap String × List Diag :=
  if hasKeyS definitions name then
    ((lookupS definitions name).getD [], [])
  else
    let g := guess_definition attrs definitions
    (g.1, ⟨Severity.warning, Msg.unexpectedName⟩ :: g.2)

end cdscdm

/-- `name in definitions` for a hashable name against a string-keyed
mapping: only string names can be members. -/
def keyInDefs {α : Type} (name : PyKey) (defs : SMap α) : Bool :=
  match name with
  | PyKey.str s => hasKeyS defs s
  | PyKey.other _ => false

/-- `definitions[name]` for a hashable name. -/
def lookupKey {α : Type} (name : PyKey) (defs : SMap α) : Option α :=
  match name with
  | PyKey.str s => lookupS defs s
  | PyKey.other _ => none

namespace cdstoolbox

/-- `get_definition` (cdstoolbox/cdm.py lines 38-67): verbatim hit is
silent; otherwise warn of the unexpected name and fan out on matching
`standard_name` definitions.  Note: when the `standard_name` attribute
is absent, no further diagnostic is emitted. -/
def get_definition (name : PyKey) (attrs : PMap String)
    (definitions : SMap (SMap String)) : SMap String × List Diag :=
  if keyInDefs name definitions then
    ((lookupKey name definitions).getD [], [])
  else
    let base := [⟨Severity.warning, Msg.unexpectedName⟩]
    match lookupP attrs "standard_name" with
    | some standard_name =>
      let matching_variables :=
        (definitions.filter fun p =>
          lookupS p.2 "standard_name" == some standard_name).map Prod.fst
      if matching_variables.length == 0 then
        ([], base ++ [⟨Severity.warning, Msg.standardNameNotValid⟩])
      else if matching_variables.length == 1 then
        let expected_name := matching_variables.headD ""
        ((lookupS definitions expected_name).getD [],
          base ++ [⟨Severity.warning, Msg.wrongNameForVariable expected_name⟩])
      else
        ([], base ++ [⟨Severity.warning, Msg.matchingStandardNames matching_variables⟩])
    | none => ([], base)

end cdstoolbox

/-- The resolution fallback exactly as the (amended) claim states it:
an unexpected-name warning, then a fan-out on the number of definitions
whose standard_name matches; `missingWarn` selects whether an absent
standard_name attribute additionally warns (the guess_definition
variant) or stays silent (the get_definition variant). -/
def resolutionFallback (missingWarn : Bool) (attrs : PMap String)
    (definitions : SMap (SMap String)) : SMap String × List Diag :=
  let base := [⟨Severity.warning, Msg.unexpectedName⟩]
  match lookupP attrs "standard_name" with
  | none =>
    ([], base ++ if missingWarn then [⟨Severity.warning, Msg.missingStandardName⟩] else [])
  | some sn =>
    let ms :=
      (definitions.filter fun p => lookupS p.2 "standard_name" == some sn).map Prod.fst
    match ms with
    | [] => ([], base ++ [⟨Severity.warning, Msg.standardNameNotValid⟩])
    | [n] =>
      ((lookupS definitions n).getD [],
        base ++ [⟨Severity.warning, Msg.wrongNameForVariable n⟩])
    | _ => ([], base ++ [⟨Severity.warning, Msg.matchingStandardNames ms⟩])

/-- Definition resolution exactly as the (amended) claim states it: a
name that is a key of the definitions mapping returns its definition
with no diagnostic; otherwise resolution falls back on the
standard_name attribute. -/
def resolutionClaim (missingWarn : Bool) (name : PyKey) (attrs : PMap String)
    (definitions : SMap (SMap String)) : SMap String × List Diag :=
  match name with
  | PyKey.str s =>
    match lookupS definitions s with
    | some d => (d, [])
    | none => resolutionFallback missingWarn attrs definitions
  | PyKey.other _ => resolutionFallback missingWarn attrs definitions

namespace cdscdm

/-- `check_variable_attrs` (cdscdm_tools/cdm.py lines 80-118): sanitise
the raw attributes, then check long_name, units (skipped for time
dtypes when absent, compared against the expected units through the
three-way fan-out when present) and standard_name. -/
def check_variable_attrs (raw : PMap String) (definition : SMap String)
    (dtype : Option String) : List Diag :=
  let s := sanitise_mapping raw
  let attrs := s.1
  s.2 ++
  (if hasKeyS attrs "long_name" then [] else
    [⟨Severity.warning, Msg.missingLongName⟩]) ++
  (match lookupS attrs "units" with
   | none =>
     if timeDtype dtype then [] else [⟨Severity.warning, Msg.missingUnits⟩]
   | some units =>
     match lookupS definition "units" with
     | none => []
     | some expected_units =>
       if cfunits.isvalid units = false then
         [⟨Severity.warning, Msg.unitsNotValid units⟩]
       else if cfunits.equivalent units expected_units = false then
         [⟨Severity.warning, Msg.unitsNotEquivalent⟩]
       else if cfunits.equalsU units expected_units = false then
         [⟨Severity.warning, Msg.unitsNotEqual⟩]
       else []) ++
  (match lookupS definition "standard_name" with
   | none => []
   | some expected_standard_name =>
     match lookupS attrs "standard_name" with
     | none => [⟨Severity.warning, Msg.missingExpectedStandardName⟩]
     | some standard_name =>
       if standard_name = expected_standard_name then []
       else [⟨Severity.warning, Msg.standardNameMismatch standard_name⟩])

end cdscdm

namespace cdstoolbox

/-- `check_variable_attrs` (cdstoolbox/cdm.py lines 70-105): no
sanitisation and no dtype guard; the units comparison runs whenever the
definition has expected units, on the possibly absent observed units. -/
def check_variable_attrs (attrs : PMap String) (definition : SMap String) :
    List Diag :=
  (if hasKeyP attrs "long_name" then [] else
    [⟨Severity.warning, Msg.missingLongName⟩]) ++
  (if hasKeyP attrs "units" then [] else
    [⟨Severity.warning, Msg.missingUnits⟩]) ++
  (match lookupS definition "units" with
   | none => []
   | some expected_units =>
     let units := lookupP attrs "units"
     if cfunits.isvalidO units = false then
       [⟨Severity.warning, Msg.unitsNotValid (units.getD "None")⟩]
     else if cfunits.equivalentO units expected_units = false then
       [⟨Severity.warning, Msg.unitsNotEquivalent⟩]
     else if cfunits.equalsO units expected_units = false then
       [⟨Severity.warning, Msg.unitsNotEqual⟩]
     else []) ++
  (match lookupS definition "standard_name" with
   | none => []
   | some expected_standard_name =>
     match lookupP attrs "standard_name" with
     | none => [⟨Severity.warning, Msg.missingExpectedStandardName⟩]
     | some standard_name =>
       if standard_name = expected_standard_name then []
       else [⟨Severity.warning, Msg.standardNameMismatch standard_name⟩])

/-- `check_coordinate_attrs` (cdstoolbox/cdm.py lines 108-152): find the
coordinate definition (by name, else by scanning standard_name,
erroring on each wrong-name match), error when no definition is found,
warn on a missing long_name, return early for time dtypes, and
otherwise require units: absent units is an error, as is an invalid or
non-equal units value. -/
def coordScan (cdmCoords : SMap (SMap String)) (sn : String) :
    SMap String × List Diag :=
  cdmCoords.foldl
    (fun acc p =>
      if lookupS p.2 "standard_name" == some sn then
        (p.2, acc.2 ++ [⟨Severity.error, Msg.wrongNameForCoordinate p.1⟩])
      else acc)
    (([] : SMap String), ([] : List Diag))

/-- Coordinate definition discovery of `check_coordinate_attrs` (lines
121-129): by name, else by scanning standard_name, erroring on each
wrong-name match (the last match wins). -/
def findCoordDef (cdmCoords : SMap (SMap String)) (name : PyKey)
    (standard_name : Option String) : SMap String × List Diag :=
  if keyInDefs name cdmCoords then
    ((lookupKey name cdmCoords).getD [], ([] : List Diag))
  else
    match standard_name with
    | some sn => coordScan cdmCoords sn
    | none => ([], [])

def check_coordinate_attrs (cdmCoords : SMap (SMap String)) (name : PyKey)
    (attrs : PMap String) (dtype_name : Option String) : List Diag :=
  let found := findCoordDef cdmCoords name (lookupP attrs "standard_name")
  let definition := found.1
  let d2 : List Diag :=
    if definition = [] then [⟨Severity.error, Msg.coordinateNotFound⟩] else []
  let expected_units := (lookupS definition "units").getD "1"
  let d3 : List Diag :=
    if hasKeyP attrs "long_name" then [] else
      [⟨Severity.warning, Msg.missingLongName⟩]
  if timeDtype dtype_name then found.2 ++ d2 ++ d3
  else
    found.2 ++ d2 ++ d3 ++
    (match lookupP attrs "units" with
     | none => [⟨Severity.error, Msg.missingRequiredUnits⟩]
     | some units =>
       if cfunits.isvalid units = false then
         [⟨Severity.error, Msg.unitsNotValid units⟩]
       else if cfunits.equalsU units expected_units = false then
         [⟨Severity.error, Msg.unitsNotEqual⟩]
       else [])

end cdstoolbox

/-- The units-comparison diagnostics of the three-way fan-out. -/
def isUnitsCmp : Msg → Bool
  | Msg.unitsNotValid _ => true
  | Msg.unitsNotEquivalent => true
  | Msg.unitsNotEqual => true
  | _ => false

namespace cdscdm

/-- `check_dataset_attrs` (cdscdm_tools/cdm.py lines 37-49): sanitise,
check the Conventions value against the accepted set, then warn for
each absent required global attribute, in schema order. -/
def check_dataset_attrs (cdmAttrs : List String) (raw : PMap String) :
    List Diag :=
  let s := sanitise_mapping raw
  s.2 ++
  (match lookupS s.1 "Conventions" with
   | none => [⟨Severity.warning, Msg.missingConventions⟩]
   | some c =>
     if c = "CF-1.8" ∨ c = "CF-1.7" ∨ c = "CF-1.6" then []
     else [⟨Severity.warning, Msg.invalidConventions c⟩]) ++
  cdmAttrs.filterMap (fun a =>
    if hasKeyS s.1 a then none
    else some ⟨Severity.warning, Msg.missingGlobalAttr a⟩)

end cdscdm

namespace cdstoolbox

/-- `check_dataset_attrs` (cdstoolbox/cdm.py lines 24-35): as in the
other variant but without sanitisation, looking keys up directly in the
raw mapping. -/
def check_dataset_attrs (cdmAttrs : List String) (attrs : PMap String) :
    List Diag :=
  (match lookupP attrs "Conventions" with
   | none => [⟨Severity.warning, Msg.missingConventions⟩]
   | some c =>
     if c = "CF-1.8" ∨ c = "CF-1.7" ∨ c = "CF-1.6" then []
     else [⟨Severity.warning, Msg.invalidConventions c⟩]) ++
  cdmAttrs.filterMap (fun a =>
    if hasKeyP attrs a then none
    else some ⟨Severity.warning, Msg.missingGlobalAttr a⟩)

end cdstoolbox

/-- Stable insertion of `x` into a list sorted by `key`: `x` goes
before the first element whose key is not smaller. -/
def insertSorted {α : Type} (key : α → String) (x : α) : List α → List α
  | [] => [x]
  | y :: rest =>
    if key x ≤ key y then x :: y :: rest else y :: insertSorted key x rest

/-- `sorted(l, key=key)`: stable ascending sort. -/
def sortByKey {α : Type} (key : α → String) : List α → List α
  | [] => []
  | x :: rest => insertSorted key x (sortByKey key rest)

/-- One external definition table: an `axis_entry` mapping and a
`variable_entry` mapping, keyed by internal identifiers. -/
structure CmorTable where
  axis_entry : SMap (SMap String)
  variable_entry : SMap (SMap String)
deriving DecidableEq, Repr

/-- `charsPrefixOf p l`: `p` is a prefix of `l`. -/
def charsPrefixOf : List Char → List Char → Bool
  | [], _ => true
  | _ :: _, [] => false
  | a :: as, b :: bs => a == b && charsPrefixOf as bs

/-- `pat in s` for Python strings: substring containment. -/
def strContains (s pat : String) : Bool :=
  s.toList.tails.any (fun t => charsPrefixOf pat.toList t)

/-- `coord["out_name"]` (KeyError on a malformed entry in Python;
modelled as the empty string). -/
def outNameOf (e : SMap String) : String := (lookupS e "out_name").getD ""

/-- The sort key of the axis loop: `x[1].get("out_name", x[0])` (the
entry key is the fallback). -/
def axisSortKey (p : String × SMap String) : String :=
  (lookupS p.2 "out_name").getD p.1

/-- The body of the axis loop (cmor_to_cdm.py lines 40-49): keep only
non-empty standard_name/long_name fields, add units unless empty or an
epoch-relative "since" expression, add stored_direction unless absent,
empty or the default "increasing". -/
def axisEntryToCdm (coord : SMap String) : SMap String :=
  let base := coord.filter (fun kv =>
    kv.2 != "" && (kv.1 == "standard_name" || kv.1 == "long_name"))
  let u := (lookupS coord "units").getD ""
  let withUnits :=
    if u != "" && !strContains u "since" then insertD base "units" u else base
  let sd := (lookupS coord "stored_direction").getD ""
  if sd != "increasing" && sd != "" then
    insertD withUnits "stored_direction" sd
  else withUnits

/-- The body of the variable loop (cmor_to_cdm.py lines 51-57): keep
only non-empty standard_name/long_name/units fields. -/
def varEntryToCdm (v : SMap String) : SMap String :=
  v.filter (fun kv =>
    kv.2 != "" && (kv.1 == "standard_name" || kv.1 == "long_name" ||
      kv.1 == "units"))

/-- The emission loop shared by the axis and variable passes:
`d[key(p)] = val(p)` for each entry in order. -/
def foldInsert {α β : Type} (key : β → String) (val : β → α) (l : List β)
    (acc : SMap α) : SMap α :=
  l.foldl (fun m p => insertD m (key p) (val p)) acc

/-- Process one table's axis entries into the accumulated coords
mapping, in sorted order, keyed by out_name. -/
def processAxisTable (acc : SMap (SMap String)) (t : CmorTable) :
    SMap (SMap String) :=
  foldInsert (fun p => outNameOf p.2) (fun p => axisEntryToCdm p.2)
    (sortByKey axisSortKey t.axis_entry) acc

/-- Process one table's variable entries (sorted by `x["out_name"]`,
over the values only). -/
def processVarTable (acc : SMap (SMap String)) (t : CmorTable) :
    SMap (SMap String) :=
  foldInsert (fun p => outNameOf p.2) (fun p => varEntryToCdm p.2)
    (sortByKey (fun p => outNameOf p.2) t.variable_entry) acc

/-- The compiled schema artifact. -/
structure CdmSchema where
  attrs : List String
  coords : SMap (SMap String)
  data_vars : SMap (SMap String)
deriving DecidableEq, Repr

/-- `cmor_to_cdm` (cmor_to_cdm.py lines 28-64): compile the input
tables into the schema; tables are processed in order, so later
tables overwrite earlier entries with the same out_name. -/
def cmor_to_cdm (cmor_objects : List CmorTable) : CdmSchema :=
  { attrs := ["title", "history", "institution", "source", "comment",
      "references"]
    coords := cmor_objects.foldl processAxisTable []
    data_vars := cmor_objects.foldl processVarTable [] }

/-- A coordinate entity attached to a variable: values and dtype. -/
structure Coord where
  values : List Int
  dtype_name : String
deriving DecidableEq, Repr

/-- A data variable (or dataset coordinate entity). -/
structure DataArray where
  dims : List String
  values : List Int
  attrs : PMap String
  dtype_name : String
  coords : SMap Coord
deriving DecidableEq, Repr

/-- A dataset: global attributes, data variables and coordinates, each
an ordered mapping. -/
structure Dataset where
  attrs : PMap String
  data_vars : PMap DataArray
  coords : PMap DataArray
deriving DecidableEq, Repr

namespace cdscdm

/-- `check_variable_data` (cdscdm_tools/cdm.py lines 121-128): each
dimension must be a known CDM coordinate and be attached to the
variable. -/
def check_variable_data (cdmCoords : SMap (SMap String)) (v : DataArray) :
    List Diag :=
  (v.dims.map (fun dim =>
    if ¬ hasKeyS cdmCoords dim then
      [⟨Severity.warning, Msg.unknownDimension dim⟩]
    else if ¬ hasKeyS v.coords dim then
      [⟨Severity.error, Msg.dimensionWithoutCoordinate dim⟩]
    else [])).flatten

/-- `check_variable` (cdscdm_tools/cdm.py lines 131-147): sanitise the
attributes, resolve the definition, check attributes and data, and run
the monotonicity check when the variable is a bare 1-D self-named
axis. -/
def check_variable (cdmCoords : SMap (SMap String)) (name : String)
    (v : DataArray) (definitions : SMap (SMap String)) : List Diag :=
  let s := sanitise_mapping v.attrs
  let r := resolveDefinition name s.1 definitions
  s.2 ++ r.2 ++
  check_variable_attrs v.attrs r.1 (some v.dtype_name) ++
  check_variable_data cdmCoords v ++
  (if v.dims = [name] then
    check_coordinate_data v.values
      (((lookupS r.1 "stored_direction").getD "increasing") == "increasing")
  else [])

/-- The payload partition of `check_dataset_data_vars` (lines 154-161):
the sanitised data variables that are not ancillary. -/
def payload_vars (raw : PMap DataArray) : SMap DataArray :=
  (sanitise_mapping raw).1.filter (fun p => !CDM_ANCILLARY_VARS.contains p.1)

/-- `check_dataset_data_vars` (cdscdm_tools/cdm.py lines 150-170):
sanitise, split off the ancillary variables, error when more than one
payload variable remains, then check each payload variable. -/
def check_dataset_data_vars (cdmCoords cdmDataVars : SMap (SMap String))
    (raw : PMap DataArray) : List Diag :=
  let s := sanitise_mapping raw
  let payload := payload_vars raw
  s.2 ++
  (if payload.length > 1 then
    [⟨Severity.error, Msg.atMostOneNonAuxiliary (payload.map Prod.fst)⟩]
  else []) ++
  (payload.map (fun p => check_variable cdmCoords p.1 p.2 cdmDataVars)).flatten

/-- `check_dataset_coords` (cdscdm_tools/cdm.py lines 191-197). -/
def check_dataset_coords (cdmCoords : SMap (SMap String))
    (raw : PMap DataArray) : List Diag :=
  let s := sanitise_mapping raw
  s.2 ++ (s.1.map (fun p => check_variable cdmCoords p.1 p.2 cdmCoords)).flatten

/-- `check_dataset` (cdscdm_tools/cdm.py lines 205-208): global
attributes, then coordinates, then data variables. -/
def check_dataset (cdmAttrs : List String)
    (cdmCoords cdmDataVars : SMap (SMap String)) (ds : Dataset) : List Diag :=
  check_dataset_attrs cdmAttrs ds.attrs ++
  check_dataset_coords cdmCoords ds.coords ++
  check_dataset_data_vars cdmCoords cdmDataVars ds.data_vars

end cdscdm

namespace cdstoolbox

/-- `check_variable_data` (cdstoolbox/cdm.py lines 174-187): as in the
other variant, but a dimension with an attached coordinate also gets
the monotonicity check, with the direction from the schema. -/
def check_variable_data (cdmCoords : SMap (SMap String)) (v : DataArray) :
    List Diag :=
  (v.dims.map (fun dim =>
    if ¬ hasKeyS cdmCoords dim then
      [⟨Severity.warning, Msg.unknownCoordinate dim⟩]
    else if ¬ hasKeyS v.coords dim then
      [⟨Severity.error, Msg.dimensionWithoutCoordinate dim⟩]
    else
      let coord_definition := (lookupS cdmCoords dim).getD []
      let increasing :=
        ((lookupS coord_definition "stored_direction").getD "increasing") ==
          "increasing"
      check_coordinate_data
        (((lookupS v.coords dim).map Coord.values).getD []) increasing)).flatten

/-- `check_variable` (cdstoolbox/cdm.py lines 190-198). -/
def check_variable (cdmCoords cdmDataVars : SMap (SMap String)) (name : PyKey)
    (v : DataArray) : List Diag :=
  let g := get_definition name v.attrs cdmDataVars
  g.2 ++ check_variable_attrs v.attrs g.1 ++ check_variable_data cdmCoords v

/-- `check_dataset` (cdstoolbox/cdm.py lines 201-209): the
more-than-one-variable error (counting every data variable) first,
then global attributes, then data variables, then coordinates. -/
def check_dataset (cdmAttrs : List String)
    (cdmCoords cdmDataVars : SMap (SMap String)) (ds : Dataset) : List Diag :=
  (if ds.data_vars.length > 1 then
    [⟨Severity.error,
      Msg.atMostOneVariable (ds.data_vars.map (fun p => p.1.strForm))⟩]
  else []) ++
  check_dataset_attrs cdmAttrs ds.attrs ++
  (ds.data_vars.map (fun p => check_variable cdmCoords cdmDataVars p.1 p.2)).flatten ++
  (ds.coords.map (fun p =>
    check_coordinate_attrs cdmCoords p.1 p.2.attrs (some p.2.dtype_name))).flatten

end cdstoolbox

/-- The structural multiple-variable error messages. -/
def isMulti : Msg → Bool
  | Msg.atMostOneNonAuxiliary _ => true
  | Msg.atMostOneVariable _ => true
  | _ => false

/-- A diagnostic stream free of multiple-variable errors. -/
def NoMulti (l : List Diag) : Prop := ∀ d ∈ l, isMulti d.msg = false

/-- The dataset-level diagnostic order exactly as the claim states it,
over the cdstoolbox components: all global-attribute diagnostics first,
then the multiple-variable error, then the data variables, then the
coordinates. -/
def claimOrderToolbox (cdmAttrs : List String)
    (cdmCoords cdmDataVars : SMap (SMap String)) (ds : Dataset) : List Diag :=
  cdstoolbox.check_dataset_attrs cdmAttrs ds.attrs ++
  (if ds.data_vars.length > 1 then
    [⟨Severity.error,
      Msg.atMostOneVariable (ds.data_vars.map (fun p => p.1.strForm))⟩]
  else []) ++
  (ds.data_vars.map (fun p =>
    cdstoolbox.check_variable cdmCoords cdmDataVars p.1 p.2)).flatten ++
  (ds.coords.map (fun p =>
    cdstoolbox.check_coordinate_attrs cdmCoords p.1 p.2.attrs
      (some p.2.dtype_name))).flatten

theorem diffList_eq_zip (values : List Int) :
    diffList values = (values.zip values.tail).map (fun p => p.2 - p.1) := by
  match values with
  | [] => rfl
  | [a] => rfl
  | a :: b :: rest =>
    simp only [diffList, List.tail_cons, List.zip_cons_cons, List.map_cons]
    exact congrArg _ (diffList_eq_zip (b :: rest))

theorem diffList_any_le (values : List Int) :
    (diffList values).any (fun d => decide (d ≤ 0)) = true ↔
      ∃ p ∈ values.zip values.tail, p.2 - p.1 ≤ 0 := by
  rw [diffList_eq_zip]
  constructor
  · intro h
    rw [List.any_eq_true] at h
    obtain ⟨d, hd, hle⟩ := h
    rw [List.mem_map] at hd
    obtain ⟨p, hp, rfl⟩ := hd
    exact ⟨p, hp, by simpa using hle⟩
  · rintro ⟨p, hp, hle⟩
    rw [List.any_eq_true]
    exact ⟨p.2 - p.1, List.mem_map_of_mem _ hp, by simpa using hle⟩

theorem diffList_any_ge (values : List Int) :
    (diffList values).any (fun d => decide (0 ≤ d)) = true ↔
      ∃ p ∈ values.zip values.tail, 0 ≤ p.2 - p.1 := by
  rw [diffList_eq_zip]
  constructor
  · intro h
    rw [List.any_eq_true] at h
    obtain ⟨d, hd, hle⟩ := h
    rw [List.mem_map] at hd
    obtain ⟨p, hp, rfl⟩ := hd
    exact ⟨p, hp, by simpa using hle⟩
  · rintro ⟨p, hp, hle⟩
    rw [List.any_eq_true]
    exact ⟨p.2 - p.1, List.mem_map_of_mem _ hp, by simpa using hle⟩

/-- Claim C2: for a 1-D coordinate with at least two elements, the
monotonicity check emits exactly one error iff some adjacent difference
is ≤ 0 (expected increasing) resp. ≥ 0 (expected decreasing), and no
diagnostic otherwise; ties violate both directions; and the four
concrete examples from the spec behave as stated. -/
theorem C2_monotonicity (values : List Int) (h : 2 ≤ values.length) :
    (check_coordinate_data values true =
        [⟨Severity.error, Msg.storedDirectionNotIncreasing⟩] ↔
      ∃ p ∈ values.zip values.tail, p.2 - p.1 ≤ 0) ∧
    (check_coordinate_data values true = [] ↔
      ¬ ∃ p ∈ values.zip values.tail, p.2 - p.1 ≤ 0) ∧
    (check_coordinate_data values false =
        [⟨Severity.error, Msg.storedDirectionNotDecreasing⟩] ↔
      ∃ p ∈ values.zip values.tail, 0 ≤ p.2 - p.1) ∧
    (check_coordinate_data values false = [] ↔
      ¬ ∃ p ∈ values.zip values.tail, 0 ≤ p.2 - p.1) ∧
    ((∃ p ∈ values.zip values.tail, p.1 = p.2) →
      check_coordinate_data values true =
          [⟨Severity.error, Msg.storedDirectionNotIncreasing⟩] ∧
        check_coordinate_data values false =
          [⟨Severity.error, Msg.storedDirectionNotDecreasing⟩]) ∧
    check_coordinate_data [1, 2, 3] true = [] ∧
    check_coordinate_data [1, 1, 2] true =
      [⟨Severity.error, Msg.storedDirectionNotIncreasing⟩] ∧
    check_coordinate_data [3, 2, 1] false = [] ∧
    check_coordinate_data [1, 2, 3] false =
      [⟨Severity.error, Msg.storedDirectionNotDecreasing⟩] := by
  have incr := diffList_any_le values
  have decr := diffList_any_ge values
  refine ⟨?_, ?_, ?_, ?_, ?_, by decide, by decide, by decide, by decide⟩
  · rw [← incr]
    unfold check_coordinate_data
    cases hc : (diffList values).any (fun d => decide (d ≤ 0)) <;> simp [hc]
  · rw [← incr]
    unfold check_coordinate_data
    cases hc : (diffList values).any (fun d => decide (d ≤ 0)) <;> simp [hc]
  · rw [← decr]
    unfold check_coordinate_data
    cases hc : (diffList values).any (fun d => decide (0 ≤ d)) <;> simp [hc]
  · rw [← decr]
    unfold check_coordinate_data
    cases hc : (diffList values).any (fun d => decide (0 ≤ d)) <;> simp [hc]
  · rintro ⟨p, hp, he⟩
    have h1 : (diffList values).any (fun d => decide (d ≤ 0)) = true :=
      incr.mpr ⟨p, hp, by omega⟩
    have h2 : (diffList values).any (fun d => decide (0 ≤ d)) = true :=
      decr.mpr ⟨p, hp, by omega⟩
    constructor
    · unfold check_coordinate_data
      simp [h1]
    · unfold check_coordinate_data
      simp [h2]

theorem C2_monotonicity_witness :
    2 ≤ ([1, 1, 2] : List Int).length ∧
      check_coordinate_data [1, 1, 2] true =
        [⟨Severity.error, Msg.storedDirectionNotIncreasing⟩] :=
  ⟨by decide, (C2_monotonicity [1, 1, 2] (by decide)).2.2.2.2.2.2.1⟩

/-- Claim C10: a 1-D coordinate with fewer than two elements produces no
diagnostic under either expected direction, since the successive
difference sequence is empty. -/
theorem C10_short_coordinate (values : List Int) (h : values.length < 2)
    (increasing : Bool) :
    check_coordinate_data values increasing = [] := by
  have hd : diffList values = [] := by
    match values, h with
    | [], _ => rfl
    | [a], _ => rfl
  unfold check_coordinate_data
  rw [hd]
  cases increasing <;> simp

theorem C10_short_coordinate_witness :
    ([7] : List Int).length < 2 ∧ check_coordinate_data [7] true = [] :=
  ⟨by decide, C10_short_coordinate [7] (by decide) true⟩

/-! ## Units model

Modelled from the spec: the external `cfunits` library (an excluded
collaborator, spec section 6) parses a unit expression and offers
validity (`isvalid`), dimensional compatibility (`equivalent`) and
exact scale/offset identity (`equals`).  A small concrete table of unit
expressions suffices for the checks under verification; scale and
offset are recorded in hundredths to keep them integral. -/

theorem lookupP_strs {α : Type} (m : SMap α) (k : String) :
    lookupP (strs m) k = lookupS m k := by
  induction m with
  | nil => rfl
  | cons p rest ih =>
    simp only [strs, List.map_cons, lookupP, lookupS]
    split
    · rfl
    · exact ih

/-- Claim C1 (amended): definition resolution behaves as the claim
describes in both variants — a verbatim hit returns the definition with
no diagnostic, any other name warns and fans out on the number of
matching standard_name definitions — except that the get_definition
variant emits no missing-standard_name warning when the attribute is
absent, while the guess_definition variant does.  Both variants are
deterministic functions of (name, attributes, definitions). -/
theorem C1_amended :
    (∀ (name : String) (attrs : SMap String) (defs : SMap (SMap String)),
      cdscdm.resolveDefinition name attrs defs =
        resolutionClaim true (PyKey.str name) (strs attrs) defs) ∧
    (∀ (name : PyKey) (attrs : PMap String) (defs : SMap (SMap String)),
      cdstoolbox.get_definition name attrs defs =
        resolutionClaim false name attrs defs) := by
  constructor
  · intro name attrs defs
    unfold cdscdm.resolveDefinition resolutionClaim hasKeyS
    cases hl : lookupS defs name with
    | some d => simp [hl]
    | none =>
      simp only [hl, Option.isSome_none, Bool.false_eq_true, if_false]
      unfold cdscdm.guess_definition resolutionFallback
      rw [lookupP_strs]
      cases hs : lookupS attrs "standard_name" with
      | none => simp
      | some sn =>
        rcases hm : (defs.filter fun p =>
            lookupS p.2 "standard_name" == some sn).map Prod.fst with
          _ | ⟨n, _ | ⟨n2, ms⟩⟩ <;>
          simp [hm]
  · intro name attrs defs
    unfold cdstoolbox.get_definition resolutionClaim keyInDefs lookupKey hasKeyS
    cases name with
    | str s =>
      cases hl : lookupS defs s with
      | some d => simp [hl]
      | none =>
        simp only [hl, Option.isSome_none, Bool.false_eq_true, if_false]
        unfold resolutionFallback
        cases hs : lookupP attrs "standard_name" with
        | none => simp
        | some sn =>
          rcases hm : (defs.filter fun p =>
              lookupS p.2 "standard_name" == some sn).map Prod.fst with
            _ | ⟨n, _ | ⟨n2, ms⟩⟩ <;>
            simp [hm]
    | other r =>
      simp only [Bool.false_eq_true, if_false]
      unfold resolutionFallback
      cases hs : lookupP attrs "standard_name" with
      | none => simp
      | some sn =>
        rcases hm : (defs.filter fun p =>
            lookupS p.2 "standard_name" == some sn).map Prod.fst with
          _ | ⟨n, _ | ⟨n2, ms⟩⟩ <;>
          simp [hm]

/-- Claim C1 counterexample: on an unknown name with no standard_name
attribute, `get_definition` emits only the unexpected-name warning —
the claimed missing-standard_name warning never appears. -/
theorem C1_counterexample :
    cdstoolbox.get_definition (PyKey.str "x") [] [] =
        ([], [⟨Severity.warning, Msg.unexpectedName⟩]) ∧
      ¬ (⟨Severity.warning, Msg.missingStandardName⟩ : Diag) ∈
          (cdstoolbox.get_definition (PyKey.str "x") [] []).2 := by
  constructor
  · decide
  · decide

/-! ## Variable / coordinate attribute checks -/

theorem sanitise_diags_msgs {α : Type} (m : PMap α) :
    ∀ d ∈ (sanitise_mapping m).2, ∃ k, d = ⟨Severity.warning, Msg.nonStringKey k⟩ := by
  suffices h : ∀ (acc : SMap α × List Diag),
      (∀ d ∈ acc.2, ∃ k, d = ⟨Severity.warning, Msg.nonStringKey k⟩) →
      ∀ d ∈ (m.foldl sanitise_step acc).2, ∃ k, d = ⟨Severity.warning, Msg.nonStringKey k⟩ by
    exact h ([], []) (by simp)
  induction m with
  | nil => intro acc hacc; exact hacc
  | cons kv rest ih =>
    intro acc hacc
    simp only [List.foldl_cons]
    apply ih
    cases hk : kv.1 with
    | str s => simpa [sanitise_step, hk] using hacc
    | other r =>
      simp only [sanitise_step, hk]
      intro d hd
      rcases List.mem_append.mp hd with h1 | h1
      · exact hacc d h1
      · simp only [List.mem_singleton] at h1
        exact ⟨r, h1⟩

theorem sanitise_filter_unitsCmp {α : Type} (m : PMap α) :
    ((sanitise_mapping m).2).filter (fun d => isUnitsCmp d.msg) = [] := by
  rw [List.filter_eq_nil_iff]
  intro d hd
  obtain ⟨k, rfl⟩ := sanitise_diags_msgs m d hd
  simp [isUnitsCmp]

theorem isvalidO_some (u : String) :
    cfunits.isvalidO (some u) = cfunits.isvalid u := rfl

theorem equivalentO_some (u e : String) :
    cfunits.equivalentO (some u) e = cfunits.equivalent u e := rfl

theorem equalsO_some (u e : String) :
    cfunits.equalsO (some u) e = cfunits.equalsU u e := rfl

/-- Claim C3: when the attributes carry a units value and the resolved
definition has expected units, at most one units-comparison diagnostic
is emitted, chosen by the mutually exclusive three-way fan-out
(invalid, else not equivalent, else not equal, else none), in both
variants; and observed m against expected K yields the not-equivalent
diagnostic, never the not-equal one. -/
theorem C3_units_fanout :
    (∀ (raw : PMap String) (definition : SMap String) (dtype : Option String)
        (u e : String),
      lookupS (sanitise_mapping raw).1 "units" = some u →
      lookupS definition "units" = some e →
      (cdscdm.check_variable_attrs raw definition dtype).filter
          (fun d => isUnitsCmp d.msg) =
        (if cfunits.isvalid u = false then
          [⟨Severity.warning, Msg.unitsNotValid u⟩]
         else if cfunits.equivalent u e = false then
          [⟨Severity.warning, Msg.unitsNotEquivalent⟩]
         else if cfunits.equalsU u e = false then
          [⟨Severity.warning, Msg.unitsNotEqual⟩]
         else []) ∧
      ((cdscdm.check_variable_attrs raw definition dtype).filter
          (fun d => isUnitsCmp d.msg)).length ≤ 1) ∧
    (∀ (attrs : PMap String) (definition : SMap String) (u e : String),
      lookupP attrs "units" = some u →
      lookupS definition "units" = some e →
      (cdstoolbox.check_variable_attrs attrs definition).filter
          (fun d => isUnitsCmp d.msg) =
        (if cfunits.isvalid u = false then
          [⟨Severity.warning, Msg.unitsNotValid u⟩]
         else if cfunits.equivalent u e = false then
          [⟨Severity.warning, Msg.unitsNotEquivalent⟩]
         else if cfunits.equalsU u e = false then
          [⟨Severity.warning, Msg.unitsNotEqual⟩]
         else [])) ∧
    (cdscdm.check_variable_attrs (strs [("units", "m")]) [("units", "K")]
        none).filter (fun d => isUnitsCmp d.msg) =
      [⟨Severity.warning, Msg.unitsNotEquivalent⟩] := by
  refine ⟨?_, ?_, by decide⟩
  · intro raw definition dtype u e h1 h2
    have heq : (cdscdm.check_variable_attrs raw definition dtype).filter
        (fun d => isUnitsCmp d.msg) =
        (if cfunits.isvalid u = false then
          [⟨Severity.warning, Msg.unitsNotValid u⟩]
         else if cfunits.equivalent u e = false then
          [⟨Severity.warning, Msg.unitsNotEquivalent⟩]
         else if cfunits.equalsU u e = false then
          [⟨Severity.warning, Msg.unitsNotEqual⟩]
         else []) := by
      unfold cdscdm.check_variable_attrs
      simp only [List.filter_append, sanitise_filter_unitsCmp, h1, h2,
        List.nil_append]
      cases hds : lookupS definition "standard_name" with
      | none =>
        simp only [hds]
        split_ifs <;> simp [isUnitsCmp]
      | some esn =>
        simp only [hds]
        cases hasn : lookupS (sanitise_mapping raw).1 "standard_name" with
        | none =>
          simp only [hasn]
          split_ifs <;> simp [isUnitsCmp]
        | some sn =>
          simp only [hasn]
          split_ifs <;> simp [isUnitsCmp]
    refine ⟨heq, ?_⟩
    rw [heq]
    split_ifs <;> simp
  · intro attrs definition u e h1 h2
    unfold cdstoolbox.check_variable_attrs
    simp only [List.filter_append, h1, h2, hasKeyP, Option.isSome_some,
      isvalidO_some, equivalentO_some, equalsO_some]
    cases hds : lookupS definition "standard_name" with
    | none =>
      simp only [hds]
      split_ifs <;> simp [isUnitsCmp]
    | some esn =>
      simp only [hds]
      cases hasn : lookupP attrs "standard_name" with
      | none =>
        simp only [hasn]
        split_ifs <;> simp [isUnitsCmp]
      | some sn =>
        simp only [hasn]
        split_ifs <;> simp [isUnitsCmp]

theorem C3_units_fanout_witness :
    lookupS (sanitise_mapping (strs [("units", "m")])).1 "units" = some "m" ∧
      (cdscdm.check_variable_attrs (strs [("units", "m")]) [("units", "K")]
          none).filter (fun d => isUnitsCmp d.msg) =
        (if cfunits.isvalid "m" = false then
          [⟨Severity.warning, Msg.unitsNotValid "m"⟩]
         else if cfunits.equivalent "m" "K" = false then
          [⟨Severity.warning, Msg.unitsNotEquivalent⟩]
         else if cfunits.equalsU "m" "K" = false then
          [⟨Severity.warning, Msg.unitsNotEqual⟩]
         else []) :=
  ⟨by decide,
    (C3_units_fanout.1 (strs [("units", "m")]) [("units", "K")] none "m" "K"
      (by decide) (by decide)).1⟩

/-- Claim C5: a coordinate with a non-time dtype and no units attribute
draws an error-severity missing-required-units diagnostic from
`check_coordinate_attrs`, while the same omission on a data variable
draws only a warning from `check_variable_attrs` (whose diagnostics are
all warnings). -/
theorem C5_coordinate_units_severity :
    (∀ (cdmCoords : SMap (SMap String)) (name : PyKey) (attrs : PMap String)
        (dt : Option String),
      timeDtype dt = false → hasKeyP attrs "units" = false →
      (⟨Severity.error, Msg.missingRequiredUnits⟩ : Diag) ∈
        cdstoolbox.check_coordinate_attrs cdmCoords name attrs dt) ∧
    (∀ (raw : PMap String) (definition : SMap String) (dt : Option String),
      timeDtype dt = false → hasKeyS (sanitise_mapping raw).1 "units" = false →
      (⟨Severity.warning, Msg.missingUnits⟩ : Diag) ∈
        cdscdm.check_variable_attrs raw definition dt) ∧
    (∀ (raw : PMap String) (definition : SMap String) (dt : Option String),
      ∀ d ∈ cdscdm.check_variable_attrs raw definition dt,
        d.severity = Severity.warning) := by
  refine ⟨?_, ?_, ?_⟩
  · intro cdmCoords name attrs dt ht hu
    unfold cdstoolbox.check_coordinate_attrs
    cases hl : lookupP attrs "units" with
    | some u =>
      rw [hasKeyP, hl] at hu
      simp at hu
    | none =>
      simp only [ht, hl, Bool.false_eq_true, if_false]
      simp [List.mem_append]
  · intro raw definition dt ht hu
    unfold cdscdm.check_variable_attrs
    cases hl : lookupS (sanitise_mapping raw).1 "units" with
    | some u =>
      rw [hasKeyS, hl] at hu
      simp at hu
    | none =>
      simp only [hl, ht, Bool.false_eq_true, if_false]
      simp [List.mem_append]
  · intro raw definition dt d hd
    unfold cdscdm.check_variable_attrs at hd
    simp only [List.mem_append] at hd
    rcases hd with ((h | h) | h) | h
    · obtain ⟨k, rfl⟩ := sanitise_diags_msgs raw d h
      rfl
    · split at h
      · simp at h
      · simp only [List.mem_singleton] at h
        subst h
        rfl
    · repeat' split at h
      all_goals simp_all
    · repeat' split at h
      all_goals simp_all

theorem lookupS_append {α : Type} (m1 m2 : SMap α) (k : String) :
    lookupS (m1 ++ m2) k =
      if hasKeyS m1 k then lookupS m1 k else lookupS m2 k := by
  induction m1 with
  | nil => simp [hasKeyS, lookupS]
  | cons p rest ih =>
    obtain ⟨k2, v2⟩ := p
    by_cases hk : k2 = k <;> simp [lookupS, hasKeyS, hk, ih]

theorem insertD_fresh {α : Type} (m : SMap α) (k : String) (v : α)
    (h : hasKeyS m k = false) : insertD m k v = m ++ [(k, v)] := by
  induction m with
  | nil => rfl
  | cons p rest ih =>
    obtain ⟨k2, v2⟩ := p
    rw [hasKeyS, lookupS] at h
    by_cases hk : k2 = k
    · rw [if_pos hk] at h
      simp at h
    · rw [if_neg hk] at h
      simp only [insertD, if_neg hk, List.cons_append]
      exact congrArg _ (ih h)

theorem sanitise_go_diags {α : Type} :
    ∀ (m : PMap α) (c : SMap α) (ds : List Diag),
      (m.foldl sanitise_step (c, ds)).2 =
        ds ++ (m.filter (fun kv => !kv.1.isStr)).map
          (fun kv => ⟨Severity.warning, Msg.nonStringKey kv.1.strForm⟩)
  | [], c, ds => by simp
  | kv :: rest, c, ds => by
    cases hk : kv.1 with
    | str s =>
      simp [List.foldl_cons, sanitise_step, hk, List.filter_cons, PyKey.isStr,
        sanitise_go_diags rest]
    | other r =>
      simp [List.foldl_cons, sanitise_step, hk, List.filter_cons, PyKey.isStr,
        PyKey.strForm, sanitise_go_diags rest, List.append_assoc]

theorem sanitise_go_clean {α : Type} :
    ∀ (m : PMap α) (c : SMap α) (ds : List Diag),
      (m.map (fun kv => kv.1.strForm)).Nodup →
      (∀ k ∈ m.map (fun kv => kv.1.strForm), hasKeyS c k = false) →
      (m.foldl sanitise_step (c, ds)).1 =
        c ++ m.map (fun kv => (kv.1.strForm, kv.2))
  | [], c, ds, _, _ => by simp
  | kv :: rest, c, ds, hnd, hfresh => by
    have hb : hasKeyS c kv.1.strForm = false := hfresh _ (by simp)
    have hnotin : kv.1.strForm ∉ rest.map (fun kv => kv.1.strForm) := by
      have := hnd
      rw [List.map_cons, List.nodup_cons] at this
      exact this.1
    have hnd2 : (rest.map (fun kv => kv.1.strForm)).Nodup := by
      have := hnd
      rw [List.map_cons, List.nodup_cons] at this
      exact this.2
    have hfresh2 : ∀ k ∈ rest.map (fun kv => kv.1.strForm),
        hasKeyS (c ++ [(kv.1.strForm, kv.2)]) k = false := by
      intro k hkmem
      have h1 : hasKeyS c k = false := hfresh k (List.mem_cons_of_mem _ hkmem)
      have h2 : kv.1.strForm ≠ k := fun he => hnotin (he ▸ hkmem)
      rw [hasKeyS, lookupS_append, h1]
      simp only [Bool.false_eq_true, if_false]
      simp [lookupS, h2]
    have hstep : sanitise_step (c, ds) kv =
        (c ++ [(kv.1.strForm, kv.2)], (sanitise_step (c, ds) kv).2) := by
      cases hk : kv.1 with
      | str s =>
        simp only [sanitise_step, hk, PyKey.strForm]
        exact congrArg (fun x => (x, ds)) (insertD_fresh c s kv.2 (by
          have := hb
          rw [hk] at this
          exact this))
      | other r =>
        simp only [sanitise_step, hk, PyKey.strForm]
        refine congrArg (fun x => (x, _)) (insertD_fresh c r kv.2 (by
          have := hb
          rw [hk] at this
          exact this))
    rw [List.foldl_cons, hstep,
      sanitise_go_clean rest _ _ hnd2 hfresh2]
    simp [List.append_assoc]

/-- Claim C9 (amended): sanitization keeps only string keys; warnings
are exactly one per non-string key, in order, naming its printable
representation; and when the string forms of the keys are pairwise
distinct (no collisions), string keys keep their values and each
non-string key maps its representation to its original value.  On a
collision the later entry overwrites the earlier one (last write
wins). -/
theorem C9_amended :
    (∀ (α : Type) (m : PMap α),
      (sanitise_mapping m).2 =
        (m.filter (fun kv => !kv.1.isStr)).map
          (fun kv => ⟨Severity.warning, Msg.nonStringKey kv.1.strForm⟩)) ∧
    (∀ (α : Type) (m : PMap α),
      ((sanitise_mapping m).2).length =
        (m.filter (fun kv => !kv.1.isStr)).length) ∧
    (∀ (α : Type) (m : PMap α),
      (m.map (fun kv => kv.1.strForm)).Nodup →
      (sanitise_mapping m).1 = m.map (fun kv => (kv.1.strForm, kv.2))) := by
  refine ⟨?_, ?_, ?_⟩
  · intro α m
    simpa using sanitise_go_diags m [] []
  · intro α m
    have h := sanitise_go_diags m ([] : SMap α) []
    simp only [List.nil_append] at h
    rw [sanitise_mapping, h, List.length_map]
  · intro α m hnd
    simpa using sanitise_go_clean m [] [] hnd (by intro k _; rfl)

theorem C9_amended_witness :
    (([(PyKey.str "key", (2 : Nat)), (PyKey.other "None", 1)].map
        (fun kv => kv.1.strForm)).Nodup) ∧
      (sanitise_mapping [(PyKey.str "key", (2 : Nat)), (PyKey.other "None", 1)]).1 =
        [("key", 2), ("None", 1)] :=
  ⟨by decide,
    by
      rw [C9_amended.2.2 Nat [(PyKey.str "key", 2), (PyKey.other "None", 1)]
        (by decide)]
      decide⟩

/-- Claim C9 counterexample: when a non-string key's printable
representation collides with a string key that came earlier, the later
entry overwrites it, so the string key "1" does not keep its original
value 10 (the claim as stated requires both keys to keep their
values). -/
theorem C9_counterexample :
    (sanitise_mapping [(PyKey.str "1", (10 : Nat)), (PyKey.other "1", 20)]).1 =
        [("1", 20)] ∧
      lookupS (sanitise_mapping
          [(PyKey.str "1", (10 : Nat)), (PyKey.other "1", 20)]).1 "1" ≠ some 10 ∧
      ((sanitise_mapping
          [(PyKey.str "1", (10 : Nat)), (PyKey.other "1", 20)]).2).length = 1 :=
  ⟨by decide, by decide, by decide⟩

/-! ## Global attribute check (`check_dataset_attrs`) -/

theorem filterMap_const_some {α β : Type} (f : α → β) (l : List α) :
    l.filterMap (fun a => some (f a)) = l.map f := by
  induction l with
  | nil => rfl
  | cons a rest ih => simp [List.filterMap_cons, ih]

/-- Claim C7: in both variants, a mapping with an accepted Conventions
value and every required attribute draws zero diagnostics; the empty
mapping draws exactly one warning per required attribute, Conventions
first, then the schema order; and every diagnostic of this check is a
warning. -/
theorem C7_global_attrs :
    (∀ (cdmAttrs : List String) (raw : PMap String),
      (sanitise_mapping raw).2 = [] →
      (∃ c, lookupS (sanitise_mapping raw).1 "Conventions" = some c ∧
        (c = "CF-1.8" ∨ c = "CF-1.7" ∨ c = "CF-1.6")) →
      (∀ a ∈ cdmAttrs, hasKeyS (sanitise_mapping raw).1 a = true) →
      cdscdm.check_dataset_attrs cdmAttrs raw = []) ∧
    (∀ cdmAttrs : List String,
      cdscdm.check_dataset_attrs cdmAttrs [] =
        ⟨Severity.warning, Msg.missingConventions⟩ ::
          cdmAttrs.map (fun a => ⟨Severity.warning, Msg.missingGlobalAttr a⟩)) ∧
    (∀ (cdmAttrs : List String) (raw : PMap String),
      ∀ d ∈ cdscdm.check_dataset_attrs cdmAttrs raw,
        d.severity = Severity.warning) ∧
    (∀ (cdmAttrs : List String) (attrs : PMap String),
      (∃ c, lookupP attrs "Conventions" = some c ∧
        (c = "CF-1.8" ∨ c = "CF-1.7" ∨ c = "CF-1.6")) →
      (∀ a ∈ cdmAttrs, hasKeyP attrs a = true) →
      cdstoolbox.check_dataset_attrs cdmAttrs attrs = []) ∧
    (∀ cdmAttrs : List String,
      cdstoolbox.check_dataset_attrs cdmAttrs [] =
        ⟨Severity.warning, Msg.missingConventions⟩ ::
          cdmAttrs.map (fun a => ⟨Severity.warning, Msg.missingGlobalAttr a⟩)) ∧
    (∀ (cdmAttrs : List String) (attrs : PMap String),
      ∀ d ∈ cdstoolbox.check_dataset_attrs cdmAttrs attrs,
        d.severity = Severity.warning) := by
  refine ⟨?_, ?_, ?_, ?_, ?_, ?_⟩
  · rintro cdmAttrs raw hs ⟨c, hc, hacc⟩ hall
    simp only [cdscdm.check_dataset_attrs, hs, hc, List.nil_append]
    rw [if_pos hacc]
    simp only [List.nil_append]
    rw [List.filterMap_eq_nil_iff]
    intro a ha
    rw [hall a ha]
    simp
  · intro cdmAttrs
    simp only [cdscdm.check_dataset_attrs]
    have h0 : sanitise_mapping ([] : PMap String) = ([], []) := rfl
    rw [h0]
    simp only [lookupS, List.nil_append, List.cons_append, List.cons.injEq,
      true_and]
    simp [hasKeyS, lookupS, filterMap_const_some]
  · intro cdmAttrs raw d hd
    unfold cdscdm.check_dataset_attrs at hd
    simp only [List.mem_append] at hd
    rcases hd with (h | h) | h
    · obtain ⟨k, rfl⟩ := sanitise_diags_msgs raw d h
      rfl
    · repeat' split at h
      all_goals simp_all
    · rw [List.mem_filterMap] at h
      obtain ⟨a, _, ha⟩ := h
      split at ha
      · simp at ha
      · simp only [Option.some.injEq] at ha
        subst ha
        rfl
  · rintro cdmAttrs attrs ⟨c, hc, hacc⟩ hall
    simp only [cdstoolbox.check_dataset_attrs, hc]
    rw [if_pos hacc]
    simp only [List.nil_append]
    rw [List.filterMap_eq_nil_iff]
    intro a ha
    rw [hall a ha]
    simp
  · intro cdmAttrs
    simp only [cdstoolbox.check_dataset_attrs]
    have h0 : lookupP ([] : PMap String) "Conventions" = none := rfl
    rw [h0]
    simp only [List.cons_append, List.nil_append, List.cons.injEq, true_and]
    simp [hasKeyP, lookupP, filterMap_const_some]
  · intro cdmAttrs attrs d hd
    unfold cdstoolbox.check_dataset_attrs at hd
    simp only [List.mem_append] at hd
    rcases hd with h | h
    · repeat' split at h
      all_goals simp_all
    · rw [List.mem_filterMap] at h
      obtain ⟨a, _, ha⟩ := h
      split at ha
      · simp at ha
      · simp only [Option.some.injEq] at ha
        subst ha
        rfl

theorem C7_global_attrs_witness :
    (∃ c, lookupP (strs [("Conventions", "CF-1.8"), ("title", "t"),
        ("history", "h"), ("institution", "i"), ("source", "s"),
        ("comment", "c"), ("references", "r")]) "Conventions" = some c ∧
        (c = "CF-1.8" ∨ c = "CF-1.7" ∨ c = "CF-1.6")) ∧
      cdstoolbox.check_dataset_attrs CDM_ATTRS
        (strs [("Conventions", "CF-1.8"), ("title", "t"), ("history", "h"),
          ("institution", "i"), ("source", "s"), ("comment", "c"),
          ("references", "r")]) = [] :=
  ⟨⟨"CF-1.8", by decide, by decide⟩,
    C7_global_attrs.2.2.2.1 CDM_ATTRS _ ⟨"CF-1.8", by decide, by decide⟩
      (by decide)⟩

/-! ## Schema compiler (`cmor_to_cdm`, cdscdm_tools/cmor_to_cdm.py
lines 28-64).

Python `sorted` is a stable ascending sort; it is embedded as a stable
insertion sort (any two stable sorts by the same key agree), which the
kernel can evaluate on concrete inputs. -/

theorem insertSorted_perm {α : Type} (key : α → String) (x : α) :
    ∀ l : List α, (insertSorted key x l).Perm (x :: l)
  | [] => List.Perm.refl _
  | y :: rest => by
    unfold insertSorted
    split
    · exact List.Perm.refl _
    · exact ((insertSorted_perm key x rest).cons y).trans (List.Perm.swap x y rest)

theorem sortByKey_perm {α : Type} (key : α → String) :
    ∀ l : List α, (sortByKey key l).Perm l
  | [] => List.Perm.refl _
  | x :: rest =>
    (insertSorted_perm key x (sortByKey key rest)).trans
      ((sortByKey_perm key rest).cons x)

theorem lookupS_insertD_self {α : Type} (m : SMap α) (k : String) (v : α) :
    lookupS (insertD m k v) k = some v := by
  induction m with
  | nil => simp [insertD, lookupS]
  | cons p rest ih =>
    obtain ⟨k2, v2⟩ := p
    by_cases hk : k2 = k
    · simp [insertD, hk, lookupS]
    · simp [insertD, hk, lookupS, ih]

theorem lookupS_insertD_ne {α : Type} (m : SMap α) (k : String) (v : α)
    (k2 : String) (h : k ≠ k2) :
    lookupS (insertD m k v) k2 = lookupS m k2 := by
  induction m with
  | nil => simp [insertD, lookupS, h]
  | cons p rest ih =>
    obtain ⟨k3, v3⟩ := p
    by_cases hk : k3 = k
    · simp [insertD, hk, lookupS, h]
    · simp [insertD, hk, lookupS, ih]

theorem foldInsert_lookup {α β : Type} (key : β → String) (val : β → α) :
    ∀ (l : List β) (acc : SMap α) (o : String),
      lookupS (foldInsert key val l acc) o =
        (match (l.filter (fun p => key p == o)).getLast? with
         | some p => some (val p)
         | none => lookupS acc o)
  | [], acc, o => by simp [foldInsert]
  | p :: rest, acc, o => by
    rw [foldInsert, List.foldl_cons,
      show (rest.foldl (fun m p => insertD m (key p) (val p))
        (insertD acc (key p) (val p))) =
        foldInsert key val rest (insertD acc (key p) (val p)) from rfl,
      foldInsert_lookup key val rest, List.filter_cons]
    by_cases hk : key p = o
    · simp only [hk, beq_self_eq_true, if_true]
      cases hrest : rest.filter (fun p => key p == o) with
      | nil =>
        simp [hrest, hk ▸ lookupS_insertD_self acc (key p) (val p)]
      | cons q qs =>
        rw [List.getLast?_cons_cons]
        cases hg : (q :: qs).getLast? with
        | none => rw [List.getLast?_eq_none_iff] at hg; simp at hg
        | some r => simp [hg]
    · have hb : (key p == o) = false := by simp [hk]
      simp only [hb, Bool.false_eq_true, if_false]
      cases hg : (rest.filter (fun p => key p == o)).getLast? with
      | some r => simp [hg]
      | none => simp [hg, lookupS_insertD_ne acc (key p) (val p) o hk]

theorem lookupS_eq_none_of_not_mem {α : Type} (m : SMap α) (k : String)
    (h : k ∉ m.map Prod.fst) : lookupS m k = none := by
  induction m with
  | nil => rfl
  | cons p rest ih =>
    obtain ⟨k2, v2⟩ := p
    rw [List.map_cons, List.mem_cons] at h
    push_neg at h
    rw [lookupS, if_neg (fun he => h.1 he.symm)]
    exact ih h.2

theorem lookupS_filter_none {α : Type} (m : SMap α) (p : String × α → Bool)
    (k : String) (h : lookupS m k = none) : lookupS (m.filter p) k = none := by
  induction m with
  | nil => rfl
  | cons q rest ih =>
    obtain ⟨k2, v2⟩ := q
    by_cases hk : k2 = k
    · rw [lookupS, if_pos hk] at h
      simp at h
    · rw [lookupS, if_neg hk] at h
      rw [List.filter_cons]
      split
      · rw [lookupS, if_neg hk]
        exact ih h
      · exact ih h

theorem lookupS_filter_keyfalse {α : Type} (m : SMap α) (q : String × α → Bool)
    (k : String) (h : ∀ v, q (k, v) = false) :
    lookupS (m.filter q) k = none := by
  induction m with
  | nil => rfl
  | cons p rest ih =>
    obtain ⟨k2, v2⟩ := p
    rw [List.filter_cons]
    by_cases hk : k2 = k
    · subst hk
      rw [h v2]
      simpa using ih
    · split
      · rw [lookupS, if_neg hk]
        exact ih
      · exact ih

theorem lookupS_filter_nodup {α : Type} (m : SMap α) (q : String → α → Bool)
    (k : String) (h : (m.map Prod.fst).Nodup) :
    lookupS (m.filter (fun kv => q kv.1 kv.2)) k =
      (match lookupS m k with
       | some v => if q k v then some v else none
       | none => none) := by
  induction m with
  | nil => rfl
  | cons pv rest ih =>
    obtain ⟨k2, v2⟩ := pv
    rw [List.map_cons, List.nodup_cons] at h
    by_cases hk : k2 = k
    · subst hk
      rw [lookupS, if_pos rfl, List.filter_cons]
      cases hq : q k2 v2 with
      | true =>
        simp only [hq, if_true]
        rw [lookupS, if_pos rfl]
      | false =>
        simp only [hq, Bool.false_eq_true, if_false]
        rw [lookupS_filter_none _ _ _
          (lookupS_eq_none_of_not_mem rest k2 h.1)]
    · rw [lookupS, if_neg hk, List.filter_cons]
      split
      · rw [lookupS, if_neg hk]
        exact ih h.2
      · exact ih h.2

theorem any_sortByKey {α : Type} (key : α → String) (q : α → Bool)
    (l : List α) : (sortByKey key l).any q = l.any q := by
  rw [Bool.eq_iff_iff, List.any_eq_true, List.any_eq_true]
  constructor
  · rintro ⟨x, hx, hq⟩
    exact ⟨x, ((sortByKey_perm key l).mem_iff).mp hx, hq⟩
  · rintro ⟨x, hx, hq⟩
    exact ⟨x, ((sortByKey_perm key l).mem_iff).mpr hx, hq⟩

theorem filter_sortByKey_singleton {α : Type} (key : α → String)
    (q : α → Bool) (l : List α) (x : α) (h : l.filter q = [x]) :
    (sortByKey key l).filter q = [x] := by
  have hp : ((sortByKey key l).filter q).Perm (l.filter q) :=
    (sortByKey_perm key l).filter q
  rw [h] at hp
  exact List.perm_singleton.mp hp

theorem hasKey_processAxisTable (acc : SMap (SMap String)) (t : CmorTable)
    (o : String) :
    hasKeyS (processAxisTable acc t) o =
      (t.axis_entry.any (fun p => outNameOf p.2 == o) || hasKeyS acc o) := by
  rw [hasKeyS, processAxisTable, foldInsert_lookup]
  cases hg : ((sortByKey axisSortKey t.axis_entry).filter
      (fun p => outNameOf p.2 == o)).getLast? with
  | some r =>
    have hmem : r ∈ (sortByKey axisSortKey t.axis_entry).filter
        (fun p => outNameOf p.2 == o) := by
      obtain ⟨hne, hxr⟩ := List.mem_getLast?_eq_getLast hg
      exact hxr ▸ List.getLast_mem hne
    have hany : t.axis_entry.any (fun p => outNameOf p.2 == o) = true := by
      rw [← any_sortByKey axisSortKey]
      rw [List.any_eq_true]
      rcases List.mem_filter.mp hmem with ⟨hm, hq⟩
      exact ⟨r, hm, hq⟩
    simp [hany]
  | none =>
    have hnil : (sortByKey axisSortKey t.axis_entry).filter
        (fun p => outNameOf p.2 == o) = [] := List.getLast?_eq_none_iff.mp hg
    have hany : t.axis_entry.any (fun p => outNameOf p.2 == o) = false := by
      rw [← any_sortByKey axisSortKey]
      rw [List.filter_eq_nil_iff] at hnil
      cases ha : (sortByKey axisSortKey t.axis_entry).any
          (fun p => outNameOf p.2 == o) with
      | false => rfl
      | true =>
        rw [List.any_eq_true] at ha
        obtain ⟨x, hx, hq⟩ := ha
        exact absurd hq (by simpa using hnil x hx)
    simp [hany, hasKeyS]

theorem hasKey_foldTables :
    ∀ (tables : List CmorTable) (acc : SMap (SMap String)) (o : String),
      hasKeyS (tables.foldl processAxisTable acc) o =
        (tables.any (fun t => t.axis_entry.any (fun p => outNameOf p.2 == o))
          || hasKeyS acc o)
  | [], acc, o => by simp
  | t :: rest, acc, o => by
    rw [List.foldl_cons, hasKey_foldTables rest, hasKey_processAxisTable,
      List.any_cons]
    cases t.axis_entry.any (fun p => outNameOf p.2 == o) <;>
      cases rest.any (fun t => t.axis_entry.any (fun p => outNameOf p.2 == o)) <;>
      cases hasKeyS acc o <;> rfl

/-- Claim C8 (amended): each axis entry is compiled keyed by its
out_name, keeping only non-empty standard_name/long_name fields; its
units field appears iff non-empty and not containing "since"; its
stored_direction field appears iff present, non-empty, and different
from the default "increasing" (the code treats an empty
stored_direction like an absent one); and when two tables share an
out_name the later table's entry wins. -/
theorem C8_amended :
    (∀ coord : SMap String,
      lookupS (axisEntryToCdm coord) "units" =
        (if ((lookupS coord "units").getD "" != "" &&
            !strContains ((lookupS coord "units").getD "") "since") = true
         then lookupS coord "units" else none)) ∧
    (∀ coord : SMap String,
      lookupS (axisEntryToCdm coord) "stored_direction" =
        (if (((lookupS coord "stored_direction").getD "" != "increasing") &&
            ((lookupS coord "stored_direction").getD "" != "")) = true
         then lookupS coord "stored_direction" else none)) ∧
    (∀ coord : SMap String, (coord.map Prod.fst).Nodup →
      ∀ k : String, k = "standard_name" ∨ k = "long_name" →
      lookupS (axisEntryToCdm coord) k =
        (match lookupS coord k with
         | some v => if v != "" then some v else none
         | none => none)) ∧
    (∀ (tables : List CmorTable) (o : String),
      hasKeyS (cmor_to_cdm tables).coords o =
        tables.any (fun t => t.axis_entry.any (fun p => outNameOf p.2 == o))) ∧
    (∀ (t1 t2 : CmorTable) (o k : String) (e : SMap String),
      t2.axis_entry.filter (fun p => outNameOf p.2 == o) = [(k, e)] →
      lookupS (cmor_to_cdm [t1, t2]).coords o = some (axisEntryToCdm e)) := by
  have hbase_units : ∀ coord : SMap String,
      lookupS (coord.filter (fun kv =>
        kv.2 != "" && (kv.1 == "standard_name" || kv.1 == "long_name")))
        "units" = none := by
    intro coord
    apply lookupS_filter_keyfalse
    intro v
    simp
  have hbase_sd : ∀ coord : SMap String,
      lookupS (coord.filter (fun kv =>
        kv.2 != "" && (kv.1 == "standard_name" || kv.1 == "long_name")))
        "stored_direction" = none := by
    intro coord
    apply lookupS_filter_keyfalse
    intro v
    simp
  refine ⟨?_, ?_, ?_, ?_, ?_⟩
  · intro coord
    unfold axisEntryToCdm
    by_cases hsd : (((lookupS coord "stored_direction").getD "" != "increasing") &&
        ((lookupS coord "stored_direction").getD "" != "")) = true
    · rw [if_pos hsd, lookupS_insertD_ne _ _ _ _ (by decide)]
      by_cases hu : ((lookupS coord "units").getD "" != "" &&
          !strContains ((lookupS coord "units").getD "") "since") = true
      · rw [if_pos hu, if_pos hu, lookupS_insertD_self]
        cases hl : lookupS coord "units" with
        | none => simp [hl] at hu
        | some v => rfl
      · rw [if_neg hu, if_neg hu]
        exact hbase_units coord
    · rw [if_neg hsd]
      by_cases hu : ((lookupS coord "units").getD "" != "" &&
          !strContains ((lookupS coord "units").getD "") "since") = true
      · rw [if_pos hu, if_pos hu, lookupS_insertD_self]
        cases hl : lookupS coord "units" with
        | none => simp [hl] at hu
        | some v => rfl
      · rw [if_neg hu, if_neg hu]
        exact hbase_units coord
  · intro coord
    unfold axisEntryToCdm
    by_cases hsd : (((lookupS coord "stored_direction").getD "" != "increasing") &&
        ((lookupS coord "stored_direction").getD "" != "")) = true
    · rw [if_pos hsd, if_pos hsd, lookupS_insertD_self]
      cases hl : lookupS coord "stored_direction" with
      | none => simp [hl] at hsd
      | some v => rfl
    · rw [if_neg hsd, if_neg hsd]
      by_cases hu : ((lookupS coord "units").getD "" != "" &&
          !strContains ((lookupS coord "units").getD "") "since") = true
      · rw [if_pos hu, lookupS_insertD_ne _ _ _ _ (by decide)]
        exact hbase_sd coord
      · rw [if_neg hu]
        exact hbase_sd coord
  · intro coord hnd k hk
    have hk_units : "units" ≠ k := by
      rcases hk with rfl | rfl <;> decide
    have hk_sd : "stored_direction" ≠ k := by
      rcases hk with rfl | rfl <;> decide
    unfold axisEntryToCdm
    have hbase : lookupS (coord.filter (fun kv =>
        kv.2 != "" && (kv.1 == "standard_name" || kv.1 == "long_name"))) k =
        (match lookupS coord k with
         | some v => if v != "" then some v else none
         | none => none) := by
      rw [lookupS_filter_nodup coord
        (fun k2 v => v != "" && (k2 == "standard_name" || k2 == "long_name"))
        k hnd]
      cases lookupS coord k with
      | none => rfl
      | some v =>
        rcases hk with rfl | rfl <;>
          · simp only []
            cases hv : (v != "") <;> simp [hv]
    by_cases hsd : (((lookupS coord "stored_direction").getD "" != "increasing") &&
        ((lookupS coord "stored_direction").getD "" != "")) = true
    · rw [if_pos hsd, lookupS_insertD_ne _ _ _ _ hk_sd]
      by_cases hu : ((lookupS coord "units").getD "" != "" &&
          !strContains ((lookupS coord "units").getD "") "since") = true
      · rw [if_pos hu, lookupS_insertD_ne _ _ _ _ hk_units]
        exact hbase
      · rw [if_neg hu]
        exact hbase
    · rw [if_neg hsd]
      by_cases hu : ((lookupS coord "units").getD "" != "" &&
          !strContains ((lookupS coord "units").getD "") "since") = true
      · rw [if_pos hu, lookupS_insertD_ne _ _ _ _ hk_units]
        exact hbase
      · rw [if_neg hu]
        exact hbase
  · intro tables o
    show hasKeyS (tables.foldl processAxisTable []) o = _
    rw [hasKey_foldTables tables [] o]
    have h0 : hasKeyS ([] : SMap (SMap String)) o = false := rfl
    rw [h0, Bool.or_false]
  · intro t1 t2 o k e h
    show lookupS (processAxisTable (processAxisTable [] t1) t2) o = _
    rw [processAxisTable, foldInsert_lookup,
      filter_sortByKey_singleton axisSortKey _ _ _ h]
    rfl

theorem C8_amended_witness :
    ([(("t2" : String),
        [("out_name", "x"), ("standard_name", "b")])] : SMap (SMap String)).filter
        (fun p => outNameOf p.2 == "x") =
      [(("t2" : String), [("out_name", "x"), ("standard_name", "b")])] ∧
    lookupS (cmor_to_cdm
        [⟨[("time", [("out_name", "x"), ("standard_name", "a")])], []⟩,
         ⟨[("t2", [("out_name", "x"), ("standard_name", "b")])], []⟩]).coords
        "x" =
      some (axisEntryToCdm [("out_name", "x"), ("standard_name", "b")]) :=
  ⟨by decide,
    C8_amended.2.2.2.2
      ⟨[("time", [("out_name", "x"), ("standard_name", "a")])], []⟩
      ⟨[("t2", [("out_name", "x"), ("standard_name", "b")])], []⟩
      "x" "t2" [("out_name", "x"), ("standard_name", "b")] (by decide)⟩

/-- Claim C8 counterexample: an axis entry whose stored_direction field
is present but the empty string is excluded from the compiled entry,
although the claim (present and different from "increasing") requires
it to appear. -/
theorem C8_counterexample :
    lookupS ([("out_name", "x"), ("stored_direction", "")] : SMap String)
        "stored_direction" = some "" ∧
      ("" : String) ≠ "increasing" ∧
      lookupS (cmor_to_cdm
          [⟨[("x0", [("out_name", "x"), ("stored_direction", "")])], []⟩]).coords
          "x" = some [] ∧
      hasKeyS (axisEntryToCdm [("out_name", "x"), ("stored_direction", "")])
        "stored_direction" = false :=
  ⟨by decide, by decide, by decide, by decide⟩

theorem C5_coordinate_units_severity_witness :
    timeDtype (some "float64") = false ∧ hasKeyP ([] : PMap String) "units" = false ∧
      (⟨Severity.error, Msg.missingRequiredUnits⟩ : Diag) ∈
        cdstoolbox.check_coordinate_attrs [] (PyKey.str "lat") [] (some "float64") :=
  ⟨by decide, by decide,
    C5_coordinate_units_severity.1 [] (PyKey.str "lat") [] (some "float64")
      (by decide) (by decide)⟩


/-! ## Data model for variables and datasets

Variables are xarray `DataArray`s viewed through what the checks use:
dimension names, 1-D values (integers; see the note on
`check_coordinate_data`), raw attributes, dtype name, and the attached
coordinates. -/

theorem noMulti_append {l1 l2 : List Diag} (h1 : NoMulti l1)
    (h2 : NoMulti l2) : NoMulti (l1 ++ l2) := by
  intro d hd
  rcases List.mem_append.mp hd with h | h
  exacts [h1 d h, h2 d h]

theorem noMulti_flatten {ls : List (List Diag)}
    (h : ∀ sub ∈ ls, NoMulti sub) : NoMulti ls.flatten := by
  intro d hd
  rw [List.mem_flatten] at hd
  obtain ⟨sub, hs, hds⟩ := hd
  exact h sub hs d hds

theorem noMulti_filter {l : List Diag} (h : NoMulti l) :
    l.filter (fun d => isMulti d.msg) = [] :=
  List.filter_eq_nil_iff.mpr (by intro d hd; simp [h d hd])

theorem noMulti_sanitise {α : Type} (m : PMap α) :
    NoMulti (sanitise_mapping m).2 := by
  intro d hd
  obtain ⟨k, rfl⟩ := sanitise_diags_msgs m d hd
  rfl

theorem noMulti_ccd (values : List Int) (inc : Bool) :
    NoMulti (check_coordinate_data values inc) := by
  intro d hd
  unfold check_coordinate_data at hd
  repeat' split at hd
  all_goals simp_all [isMulti]

theorem noMulti_guess (attrs : SMap String) (defs : SMap (SMap String)) :
    NoMulti (cdscdm.guess_definition attrs defs).2 := by
  intro d hd
  unfold cdscdm.guess_definition at hd
  cases hs : lookupS attrs "standard_name" with
  | none =>
    simp only [hs] at hd
    simp at hd
    simp [hd, isMulti]
  | some sn =>
    simp only [hs] at hd
    rcases hm : (defs.filter fun p =>
        lookupS p.2 "standard_name" == some sn).map Prod.fst with
      _ | ⟨n, _ | ⟨n2, ms⟩⟩ <;>
    · simp only [hm] at hd
      simp at hd
      simp [hd, isMulti]

theorem noMulti_resolve (name : String) (attrs : SMap String)
    (defs : SMap (SMap String)) :
    NoMulti (cdscdm.resolveDefinition name attrs defs).2 := by
  intro d hd
  unfold cdscdm.resolveDefinition at hd
  by_cases hk : hasKeyS defs name = true
  · rw [if_pos hk] at hd
    simp at hd
  · rw [if_neg hk] at hd
    have hd2 : d = ⟨Severity.warning, Msg.unexpectedName⟩ ∨
        d ∈ (cdscdm.guess_definition attrs defs).2 := List.mem_cons.mp hd
    rcases hd2 with rfl | h
    · rfl
    · exact noMulti_guess _ _ d h

theorem noMulti_get_definition (name : PyKey) (attrs : PMap String)
    (defs : SMap (SMap String)) :
    NoMulti (cdstoolbox.get_definition name attrs defs).2 := by
  intro d hd
  unfold cdstoolbox.get_definition at hd
  by_cases hk : keyInDefs name defs = true
  · rw [if_pos hk] at hd
    simp at hd
  · rw [if_neg hk] at hd
    cases hs : lookupP attrs "standard_name" with
    | none =>
      simp only [hs] at hd
      simp at hd
      simp [hd, isMulti]
    | some sn =>
      simp only [hs] at hd
      rcases hm : (defs.filter fun p =>
          lookupS p.2 "standard_name" == some sn).map Prod.fst with
        _ | ⟨n, _ | ⟨n2, ms⟩⟩ <;>
      · simp only [hm] at hd
        simp at hd
        rcases hd with rfl | rfl <;> rfl

theorem noMulti_cva (raw : PMap String) (defn : SMap String)
    (dt : Option String) :
    NoMulti (cdscdm.check_variable_attrs raw defn dt) := by
  intro d hd
  unfold cdscdm.check_variable_attrs at hd
  simp only [List.mem_append] at hd
  rcases hd with ((h | h) | h) | h
  · exact noMulti_sanitise _ d h
  · repeat' split at h
    all_goals simp_all [isMulti]
  · repeat' split at h
    all_goals simp_all [isMulti]
  · repeat' split at h
    all_goals simp_all [isMulti]

theorem noMulti_cva_toolbox (attrs : PMap String) (defn : SMap String) :
    NoMulti (cdstoolbox.check_variable_attrs attrs defn) := by
  intro d hd
  unfold cdstoolbox.check_variable_attrs at hd
  simp only [List.mem_append] at hd
  rcases hd with ((h | h) | h) | h
  all_goals
    repeat' split at h
    all_goals simp_all [isMulti]

theorem noMulti_cvd (cdmCoords : SMap (SMap String)) (v : DataArray) :
    NoMulti (cdscdm.check_variable_data cdmCoords v) := by
  unfold cdscdm.check_variable_data
  apply noMulti_flatten
  intro sub hs
  rw [List.mem_map] at hs
  obtain ⟨dim, _, rfl⟩ := hs
  intro d hd
  repeat' split at hd
  all_goals simp_all [isMulti]

theorem noMulti_cvd_toolbox (cdmCoords : SMap (SMap String)) (v : DataArray) :
    NoMulti (cdstoolbox.check_variable_data cdmCoords v) := by
  unfold cdstoolbox.check_variable_data
  apply noMulti_flatten
  intro sub hs
  rw [List.mem_map] at hs
  obtain ⟨dim, _, rfl⟩ := hs
  intro d hd
  split at hd
  · simp_all [isMulti]
  · split at hd
    · simp_all [isMulti]
    · exact noMulti_ccd _ _ d hd

theorem noMulti_cv (cdmCoords : SMap (SMap String)) (name : String)
    (v : DataArray) (defs : SMap (SMap String)) :
    NoMulti (cdscdm.check_variable cdmCoords name v defs) := by
  unfold cdscdm.check_variable
  refine noMulti_append (noMulti_append (noMulti_append (noMulti_append
    (noMulti_sanitise _) (noMulti_resolve _ _ _)) (noMulti_cva _ _ _))
    (noMulti_cvd _ _)) ?_
  split
  · exact noMulti_ccd _ _
  · intro d hd
    simp at hd

theorem noMulti_cv_toolbox (cdmCoords cdmDataVars : SMap (SMap String))
    (name : PyKey) (v : DataArray) :
    NoMulti (cdstoolbox.check_variable cdmCoords cdmDataVars name v) := by
  unfold cdstoolbox.check_variable
  exact noMulti_append (noMulti_append (noMulti_get_definition _ _ _)
    (noMulti_cva_toolbox _ _)) (noMulti_cvd_toolbox _ _)

theorem noMulti_coordScan (cdmCoords : SMap (SMap String)) (sn : String) :
    NoMulti (cdstoolbox.coordScan cdmCoords sn).2 := by
  unfold cdstoolbox.coordScan
  suffices h : ∀ (l : SMap (SMap String)) (acc : SMap String × List Diag),
      NoMulti acc.2 →
      NoMulti ((l.foldl (fun acc p =>
        if lookupS p.2 "standard_name" == some sn then
          (p.2, acc.2 ++ [⟨Severity.error, Msg.wrongNameForCoordinate p.1⟩])
        else acc) acc)).2 by
    exact h cdmCoords ([], []) (by intro d hd; simp at hd)
  intro l
  induction l with
  | nil => intro acc h; exact h
  | cons p rest ih =>
    intro acc h
    rw [List.foldl_cons]
    apply ih
    split
    · exact noMulti_append h (by
        intro d hd
        simp only [List.mem_singleton] at hd
        subst hd
        rfl)
    · exact h

theorem noMulti_findCoordDef (cdmCoords : SMap (SMap String)) (name : PyKey)
    (sn : Option String) :
    NoMulti (cdstoolbox.findCoordDef cdmCoords name sn).2 := by
  unfold cdstoolbox.findCoordDef
  split
  · intro d hd; simp at hd
  · split
    · exact noMulti_coordScan _ _
    · intro d hd; simp at hd

theorem noMulti_cca (cdmCoords : SMap (SMap String)) (name : PyKey)
    (attrs : PMap String) (dt : Option String) :
    NoMulti (cdstoolbox.check_coordinate_attrs cdmCoords name attrs dt) := by
  intro d hd
  unfold cdstoolbox.check_coordinate_attrs at hd
  by_cases ht : timeDtype dt = true
  · rw [if_pos ht] at hd
    simp only [List.mem_append] at hd
    rcases hd with (h | h) | h
    · exact noMulti_findCoordDef _ _ _ d h
    · revert h
      split <;> intro h <;> simp_all [isMulti]
    · revert h
      split <;> intro h <;> simp_all [isMulti]
  · rw [if_neg ht] at hd
    simp only [List.mem_append] at hd
    rcases hd with ((h | h) | h) | h
    · exact noMulti_findCoordDef _ _ _ d h
    · revert h
      split <;> intro h <;> simp_all [isMulti]
    · revert h
      split <;> intro h <;> simp_all [isMulti]
    · cases hu : lookupP attrs "units" with
      | none =>
        simp only [hu] at h
        simp at h
        simp [h, isMulti]
      | some u =>
        simp only [hu] at h
        repeat' split at h
        all_goals simp_all [isMulti]

theorem noMulti_cda (cdmAttrs : List String) (raw : PMap String) :
    NoMulti (cdscdm.check_dataset_attrs cdmAttrs raw) := by
  intro d hd
  unfold cdscdm.check_dataset_attrs at hd
  simp only [List.mem_append] at hd
  rcases hd with (h | h) | h
  · exact noMulti_sanitise _ d h
  · repeat' split at h
    all_goals simp_all [isMulti]
  · rw [List.mem_filterMap] at h
    obtain ⟨a, _, ha⟩ := h
    split at ha
    · simp at ha
    · simp only [Option.some.injEq] at ha
      subst ha
      rfl

theorem noMulti_cda_toolbox (cdmAttrs : List String) (attrs : PMap String) :
    NoMulti (cdstoolbox.check_dataset_attrs cdmAttrs attrs) := by
  intro d hd
  unfold cdstoolbox.check_dataset_attrs at hd
  simp only [List.mem_append] at hd
  rcases hd with h | h
  · repeat' split at h
    all_goals simp_all [isMulti]
  · rw [List.mem_filterMap] at h
    obtain ⟨a, _, ha⟩ := h
    split at ha
    · simp at ha
    · simp only [Option.some.injEq] at ha
      subst ha
      rfl

/-- Claim C4 (amended): in the cdscdm_tools check of the data-variable
mapping, ancillary variables (crs) are excluded and exactly one
multiple-variable error, listing the payload names, appears iff more
than one payload variable remains — regardless of any other
diagnostics of the same scan; in the cdstoolbox check_dataset no
exclusion happens: the error appears iff the total number of data
variables (crs included) exceeds one, and it lists every name. -/
theorem C4_amended :
    (∀ (cdmCoords cdmDataVars : SMap (SMap String)) (raw : PMap DataArray),
      (cdscdm.check_dataset_data_vars cdmCoords cdmDataVars raw).filter
          (fun d => isMulti d.msg) =
        (if (cdscdm.payload_vars raw).length > 1 then
          [⟨Severity.error,
            Msg.atMostOneNonAuxiliary ((cdscdm.payload_vars raw).map Prod.fst)⟩]
        else [])) ∧
    (∀ (cdmAttrs : List String) (cdmCoords cdmDataVars : SMap (SMap String))
        (ds : Dataset),
      (cdstoolbox.check_dataset cdmAttrs cdmCoords cdmDataVars ds).filter
          (fun d => isMulti d.msg) =
        (if ds.data_vars.length > 1 then
          [⟨Severity.error,
            Msg.atMostOneVariable (ds.data_vars.map (fun p => p.1.strForm))⟩]
        else [])) := by
  constructor
  · intro C D raw
    unfold cdscdm.check_dataset_data_vars
    have h1 : ((sanitise_mapping raw).2).filter (fun d => isMulti d.msg) = [] :=
      noMulti_filter (noMulti_sanitise raw)
    have h3 : (((cdscdm.payload_vars raw).map
        (fun p => cdscdm.check_variable C p.1 p.2 D)).flatten).filter
          (fun d => isMulti d.msg) = [] :=
      noMulti_filter (noMulti_flatten (by
        intro sub hs
        rw [List.mem_map] at hs
        obtain ⟨p, _, rfl⟩ := hs
        exact noMulti_cv _ _ _ _))
    rw [List.filter_append, List.filter_append, h1, h3]
    simp only [List.nil_append, List.append_nil]
    split <;> simp [isMulti]
  · intro A C D ds
    unfold cdstoolbox.check_dataset
    have h2 : (cdstoolbox.check_dataset_attrs A ds.attrs).filter
        (fun d => isMulti d.msg) = [] :=
      noMulti_filter (noMulti_cda_toolbox _ _)
    have h3 : ((ds.data_vars.map
        (fun p => cdstoolbox.check_variable C D p.1 p.2)).flatten).filter
          (fun d => isMulti d.msg) = [] :=
      noMulti_filter (noMulti_flatten (by
        intro sub hs
        rw [List.mem_map] at hs
        obtain ⟨p, _, rfl⟩ := hs
        exact noMulti_cv_toolbox _ _ _ _))
    have h4 : ((ds.coords.map (fun p =>
        cdstoolbox.check_coordinate_attrs C p.1 p.2.attrs
          (some p.2.dtype_name))).flatten).filter
          (fun d => isMulti d.msg) = [] :=
      noMulti_filter (noMulti_flatten (by
        intro sub hs
        rw [List.mem_map] at hs
        obtain ⟨p, _, rfl⟩ := hs
        exact noMulti_cca _ _ _ _))
    rw [List.filter_append, List.filter_append, List.filter_append,
      h2, h3, h4]
    simp only [List.append_nil]
    split <;> simp [isMulti]

/-- Claim C4 counterexample: in the cdstoolbox check_dataset, crs is
not excluded — a dataset with data variables crs and tas (one payload
variable) still draws the multiple-variable error, listing crs. -/
theorem C4_counterexample :
    (cdstoolbox.check_dataset CDM_ATTRS [] []
        { attrs := [],
          data_vars := [(PyKey.str "crs", ⟨[], [], [], "int32", []⟩),
            (PyKey.str "tas", ⟨[], [], [], "float32", []⟩)],
          coords := [] }).filter (fun d => isMulti d.msg) =
      [⟨Severity.error, Msg.atMostOneVariable ["crs", "tas"]⟩] ∧
    (([(PyKey.str "crs", (⟨[], [], [], "int32", []⟩ : DataArray)),
        (PyKey.str "tas", ⟨[], [], [], "float32", []⟩)]).filter
        (fun p => !CDM_ANCILLARY_VARS.contains p.1.strForm)).length = 1 := by
  constructor
  · decide
  · decide

/-- Claim C6 counterexample: on a dataset with empty global attributes
and two data variables, check_dataset puts the multiple-variable error
first, before the Conventions warning, so its output differs from the
claimed order (global-attribute diagnostics first). -/
theorem C6_counterexample :
    cdstoolbox.check_dataset CDM_ATTRS [] []
        { attrs := [],
          data_vars := [(PyKey.str "a", ⟨[], [], [], "float32", []⟩),
            (PyKey.str "b", ⟨[], [], [], "float32", []⟩)],
          coords := [] } ≠
      claimOrderToolbox CDM_ATTRS [] []
        { attrs := [],
          data_vars := [(PyKey.str "a", ⟨[], [], [], "float32", []⟩),
            (PyKey.str "b", ⟨[], [], [], "float32", []⟩)],
          coords := [] } ∧
    (cdstoolbox.check_dataset CDM_ATTRS [] []
        { attrs := [],
          data_vars := [(PyKey.str "a", ⟨[], [], [], "float32", []⟩),
            (PyKey.str "b", ⟨[], [], [], "float32", []⟩)],
          coords := [] }).head? =
      some ⟨Severity.error, Msg.atMostOneVariable ["a", "b"]⟩ ∧
    (claimOrderToolbox CDM_ATTRS [] []
        { attrs := [],
          data_vars := [(PyKey.str "a", ⟨[], [], [], "float32", []⟩),
            (PyKey.str "b", ⟨[], [], [], "float32", []⟩)],
          coords := [] }).head? =
      some ⟨Severity.warning, Msg.missingConventions⟩ := by
  refine ⟨by decide, by decide, by decide⟩

/-- Claim C6 (amended): the actual dataset-level orders are — in the
cdscdm_tools variant, global attributes, then all coordinates, then
the data variables (the multiple-payload error and per-variable
diagnostics); in the cdstoolbox variant, the multiple-variable error
first, then global attributes, then data variables in mapping order,
then coordinates in mapping order; in particular, when present, the
multiple-variable error is the first diagnostic of the cdstoolbox
scan, not preceded by the global-attribute diagnostics. -/
theorem C6_amended :
    (∀ (A : List String) (C D : SMap (SMap String)) (ds : Dataset),
      cdscdm.check_dataset A C D ds =
        cdscdm.check_dataset_attrs A ds.attrs ++
        cdscdm.check_dataset_coords C ds.coords ++
        cdscdm.check_dataset_data_vars C D ds.data_vars) ∧
    (∀ (A : List String) (C D : SMap (SMap String)) (ds : Dataset),
      cdstoolbox.check_dataset A C D ds =
        (if ds.data_vars.length > 1 then
          [⟨Severity.error,
            Msg.atMostOneVariable (ds.data_vars.map (fun p => p.1.strForm))⟩]
        else []) ++
        cdstoolbox.check_dataset_attrs A ds.attrs ++
        (ds.data_vars.map (fun p =>
          cdstoolbox.check_variable C D p.1 p.2)).flatten ++
        (ds.coords.map (fun p =>
          cdstoolbox.check_coordinate_attrs C p.1 p.2.attrs
            (some p.2.dtype_name))).flatten) ∧
    (∀ (A : List String) (C D : SMap (SMap String)) (ds : Dataset),
      ds.data_vars.length > 1 →
      (cdstoolbox.check_dataset A C D ds).head? =
        some ⟨Severity.error,
          Msg.atMostOneVariable (ds.data_vars.map (fun p => p.1.strForm))⟩) := by
  refine ⟨fun A C D ds => rfl, fun A C D ds => rfl, ?_⟩
  intro A C D ds h
  unfold cdstoolbox.check_dataset
  rw [if_pos h]
  rfl

theorem C6_amended_witness :
    (Dataset.mk []
        [(PyKey.str "a", ⟨[], [], [], "float32", []⟩),
          (PyKey.str "b", ⟨[], [], [], "float32", []⟩)]
        []).data_vars.length > 1 ∧
      (cdstoolbox.check_dataset CDM_ATTRS [] []
          (Dataset.mk []
            [(PyKey.str "a", ⟨[], [], [], "float32", []⟩),
              (PyKey.str "b", ⟨[], [], [], "float32", []⟩)]
            [])).head? =
        some ⟨Severity.error, Msg.atMostOneVariable ["a", "b"]⟩ :=
  ⟨by decide,
    C6_amended.2.2 CDM_ATTRS [] []
      (Dataset.mk []
        [(PyKey.str "a", ⟨[], [], [], "float32", []⟩),
          (PyKey.str "b", ⟨[], [], [], "float32", []⟩)]
        []) (by decide)⟩
